import Mathlib

/-!
# Flight booking script: search, validation and booking pipeline

A shallow embedding of `src/script.js`.  JavaScript strings are Lean `String`s,
the DOM reads of the script are explicit record fields, the two module-level
variables `currentFlights` and `selectedFlight` are an explicit `AppState`, and
the `setTimeout` callbacks are run to completion in program order.

Numbers are the rationals that doubles denote. A product of two numbers is the
exact product rounded to the nearest double (`roundToDouble`); `Math.round` is
the nearest integer with ties towards `+∞`, and `Math.floor` is `⌊·⌋`, both
exact. In `generateBookingReference` the rounding of the product is an argument
of the model, of which `roundToDouble` is an instance
(`roundToDouble_isNearestRounding`).
-/

namespace FlightBooking

/-! ## Data model -/

/-- One record of the flight catalog (`mockFlightData`, script.js 8-48). -/
structure Flight where
  id : Int
  airline : String
  flightNumber : String
  «from» : String
  «to» : String
  departureTime : String
  arrivalTime : String
  duration : String
  price : ℚ
  «class» : String
  features : List String
  deriving DecidableEq, Repr

/-- The object built by `getFormData` (script.js 180-190): every field is the
`value` of a form control, hence a string. -/
structure FormData where
  tripType : String
  fromCity : String
  toCity : String
  departureDate : String
  returnDate : String
  passengers : String
  flightClass : String
  deriving DecidableEq, Repr

/-- The object built by the `map` callback of `searchFlights`
(script.js 248-252): the spread catalog record with `price` overwritten, plus
`searchData`. -/
structure PricedFlight where
  id : Int
  airline : String
  flightNumber : String
  «from» : String
  «to» : String
  departureTime : String
  arrivalTime : String
  duration : String
  price : Int
  «class» : String
  features : List String
  searchData : FormData
  deriving DecidableEq, Repr

/-- The catalog `mockFlightData` (script.js 8-48). -/
def mockFlightData : List Flight :=
  [ { id := 1, airline := "SkyWings", flightNumber := "SW101", «from» := "NYC", «to» := "LAX",
      departureTime := "08:30", arrivalTime := "11:45", duration := "5h 15m", price := 299,
      «class» := "economy", features := ["WiFi", "Meals", "Entertainment"] },
    { id := 2, airline := "AirConnect", flightNumber := "AC205", «from» := "NYC", «to» := "LAX",
      departureTime := "14:20", arrivalTime := "17:35", duration := "5h 15m", price := 349,
      «class» := "economy", features := ["WiFi", "Meals", "Extra Legroom"] },
    { id := 3, airline := "CloudJet", flightNumber := "CJ789", «from» := "NYC", «to» := "LAX",
      departureTime := "19:45", arrivalTime := "23:00", duration := "5h 15m", price := 275,
      «class» := "economy", features := ["WiFi", "Snacks"] } ]

/-! ## Search and pricing (script.js 224-259) -/

/-- `Math.round`: the nearest integer, a tie going to the larger one. -/
def mathRound (x : ℚ) : Int := ⌊x + 1 / 2⌋

/-- Round to the nearest integer, a tie going to the even one. -/
def roundHalfEven (y : ℚ) : Int :=
  if y - ⌊y⌋ < 1 / 2 then ⌊y⌋
  else if 1 / 2 < y - ⌊y⌋ then ⌊y⌋ + 1
  else if ⌊y⌋ % 2 = 0 then ⌊y⌋ else ⌊y⌋ + 1

/-- The exponent of the unit in the last place of the doubles of the size of
`x`: 52 below the exponent of `x`, and `-1074` for the subnormal sizes. -/
def ulpExponent (x : ℚ) : Int := max (Int.log 2 |x|) (-1022) - 52

/-- The double nearest to `x`, a tie going to the even significand: what the
arithmetic of numbers makes of an exact result `x`. Results beyond the largest
double, which the arithmetic turns into `Infinity`, are not modelled. -/
def roundToDouble (x : ℚ) : ℚ :=
  (roundHalfEven (x / 2 ^ ulpExponent x) : ℚ) * 2 ^ ulpExponent x

/-- The finite numbers of the double format: `m * 2^p / 2^q` with `|m| < 2^53`
and the exponents within the range of the format. -/
def IsDouble (x : ℚ) : Prop :=
  ∃ (m : Int) (p q : Nat), |m| < 2 ^ 53 ∧ p ≤ 971 ∧ q ≤ 1074 ∧ x = (m : ℚ) * 2 ^ p / 2 ^ q

/-- A rounding of exact results as the arithmetic of numbers performs it:
monotone, and on results of moderate size no further from the exact result than
any double is. -/
def IsNearestRounding (fl : ℚ → ℚ) : Prop :=
  (∀ x y, x ≤ y → fl x ≤ fl y) ∧
    ∀ x, |x| ≤ 2 ^ 1023 → ∀ d, IsDouble d → |fl x - x| ≤ |d - x|

/-- The `filter` callback of `searchFlights` (script.js 231-237). -/
def flightMatches (searchData : FormData) (flight : Flight) : Bool :=
  flight.«from» == searchData.fromCity &&
  flight.«to» == searchData.toCity &&
  flight.«class» == searchData.flightClass

/-- The value of `adjustedPrice` after script.js 241-246; `*=` multiplies two
doubles, `2.5` being the double `5/2`. -/
def adjustedPrice (searchData : FormData) (flight : Flight) : ℚ :=
  if searchData.flightClass = "business" then roundToDouble (flight.price * (5 / 2))
  else if searchData.flightClass = "first" then roundToDouble (flight.price * 4)
  else flight.price

/-- The `map` callback of `searchFlights` (script.js 240-253). -/
def processFlight (searchData : FormData) (flight : Flight) : PricedFlight :=
  { id := flight.id, airline := flight.airline, flightNumber := flight.flightNumber,
    «from» := flight.«from», «to» := flight.«to», departureTime := flight.departureTime,
    arrivalTime := flight.arrivalTime, duration := flight.duration,
    price := mathRound (adjustedPrice searchData flight),
    «class» := flight.«class», features := flight.features, searchData := searchData }

/-- The list `processedFlights` of `searchFlights` (script.js 231-253), with the
catalog that the script reads from `mockFlightData` as an argument. -/
def searchFlightsOn (catalog : List Flight) (searchData : FormData) : List PricedFlight :=
  (catalog.filter (flightMatches searchData)).map (processFlight searchData)

/-- A priced flight with its `searchData` dropped and its `price` put back to
`basePrice`. -/
def PricedFlight.strip (p : PricedFlight) (basePrice : ℚ) : Flight :=
  { id := p.id, airline := p.airline, flightNumber := p.flightNumber, «from» := p.«from»,
    «to» := p.«to», departureTime := p.departureTime, arrivalTime := p.arrivalTime,
    duration := p.duration, price := basePrice, «class» := p.«class», features := p.features }

/-- The multiplier table of the fare classes: 1, 2.5 and 4. -/
def classMultiplier (flightClass : String) : Option ℚ :=
  if flightClass = "economy" then some 1
  else if flightClass = "business" then some (5 / 2)
  else if flightClass = "first" then some 4
  else none

/-! ## Session state and user-interface effects -/

/-- The DOM operations of the script that the pipeline performs, in the order
performed. -/
inductive UiEffect where
  | alert (message : String) (type : String)
  | showLoadingSpinner
  | hideLoadingSpinner
  | displayFlightResults (flights : List PricedFlight) (searchData : FormData)
  | updateBookingSummary (flight : PricedFlight)
  | showModal (elementId : String)
  deriving DecidableEq, Repr

/-- The module-level variables `currentFlights` and `selectedFlight`
(script.js 4-5); `none` stands for `null` and `undefined`. -/
structure AppState where
  currentFlights : List PricedFlight
  selectedFlight : Option PricedFlight
  deriving DecidableEq, Repr

/-- The function `searchFlights(searchData)` (script.js 224-259): the list is
stored in `currentFlights`, the spinner hidden and the results displayed. -/
def searchFlights (st : AppState) (searchData : FormData) : AppState × List UiEffect :=
  let processedFlights := searchFlightsOn mockFlightData searchData
  ({ st with currentFlights := processedFlights },
   [UiEffect.hideLoadingSpinner, UiEffect.displayFlightResults processedFlights searchData])

/-! ## The search form and its validation (script.js 122-210) -/

/-- The controls of the search form: their `value`s and the `min` attribute of
the return date control. -/
structure SearchForm where
  tripType : String
  fromCity : String
  toCity : String
  departureDate : String
  returnDate : String
  passengers : String
  flightClass : String
  returnDateMin : String
  deriving DecidableEq, Repr

/-- The function `getFormData` (script.js 180-190). -/
def getFormData (form : SearchForm) : FormData :=
  { tripType := form.tripType, fromCity := form.fromCity, toCity := form.toCity,
    departureDate := form.departureDate, returnDate := form.returnDate,
    passengers := form.passengers, flightClass := form.flightClass }

/-- The change handler `validateCitySelection` (script.js 122-133). -/
def validateCitySelection (form : SearchForm) : SearchForm × List UiEffect :=
  if form.fromCity ≠ "" ∧ form.toCity ≠ "" ∧ form.fromCity = form.toCity then
    ({ form with toCity := "" },
     [UiEffect.alert "Please select different departure and destination cities." "warning"])
  else (form, [])

/-- Value of a run of decimal digits, `none` when a character is not a digit. -/
def digitsValue (cs : List Char) : Option Nat :=
  cs.foldl (fun acc c => acc.bind fun n => if c.isDigit then some (n * 10 + (c.toNat - 48)) else none)
    (some 0)

/-- Number of days of month `m` of year `y` in the Gregorian calendar. -/
def daysInMonth (y m : Nat) : Nat :=
  if m = 2 then (if y % 4 = 0 ∧ (y % 100 ≠ 0 ∨ y % 400 = 0) then 29 else 28)
  else if m = 4 ∨ m = 6 ∨ m = 9 ∨ m = 11 then 30 else 31

/-- Days from 1970-01-01 to the civil date `y-m-d`. -/
def daysFromCivil (y m d : Nat) : Int :=
  let y1 : Int := if m ≤ 2 then (y : Int) - 1 else y
  let era : Int := y1 / 400
  let yoe : Int := y1 - era * 400
  let mp : Int := ((m : Int) + 9) % 12
  let doy : Int := (153 * mp + 2) / 5 + d - 1
  let doe : Int := yoe * 365 + yoe / 4 - yoe / 100 + doy
  era * 146097 + doe - 719468

/-- The time value of `new Date(s)`, in milliseconds, for a date string
`YYYY-MM-DD` naming a day of the calendar: midnight UTC of that day. Every
other string is taken as an invalid date (`none`, the time value `NaN`). -/
def dateValue (s : String) : Option Int :=
  match s.data with
  | [y1, y2, y3, y4, '-', m1, m2, '-', d1, d2] =>
    match digitsValue [y1, y2, y3, y4], digitsValue [m1, m2], digitsValue [d1, d2] with
    | some y, some m, some d =>
      if 1 ≤ m ∧ m ≤ 12 ∧ 1 ≤ d ∧ d ≤ daysInMonth y m then
        some (daysFromCivil y m d * 86400000)
      else none
    | _, _, _ => none
  | _ => none

/-- The comparison `new Date(a) < new Date(b)`: false as soon as one side is
an invalid date. -/
def dateLt (a b : String) : Bool :=
  match dateValue a, dateValue b with
  | some x, some y => decide (x < y)
  | _, _ => false

/-- The change handler `validateDates` (script.js 136-156). -/
def validateDates (form : SearchForm) : SearchForm × List UiEffect :=
  let form1 : SearchForm :=
    if form.departureDate ≠ "" then { form with returnDateMin := form.departureDate } else form
  if form.tripType = "round" ∧ form.departureDate ≠ "" ∧ form.returnDate ≠ "" then
    if dateLt form.returnDate form.departureDate then
      ({ form1 with returnDate := "" },
       [UiEffect.alert "Return date cannot be earlier than departure date." "warning"])
    else (form1, [])
  else (form1, [])

/-- The function `validateForm` (script.js 193-210): the returned boolean and
the alert shown. -/
def validateForm (formData : FormData) : Bool × List UiEffect :=
  if formData.fromCity = "" ∨ formData.toCity = "" then
    (false, [UiEffect.alert "Please select both departure and destination cities." "danger"])
  else if formData.departureDate = "" then
    (false, [UiEffect.alert "Please select a departure date." "danger"])
  else if formData.tripType = "round" ∧ formData.returnDate = "" then
    (false, [UiEffect.alert "Please select a return date for round trip." "danger"])
  else (true, [])

/-- The submit handler `handleFlightSearch` (script.js 159-177), its two timers
run to completion. -/
def handleFlightSearch (form : SearchForm) (st : AppState) : AppState × List UiEffect :=
  let formData := getFormData form
  let v := validateForm formData
  if v.1 = false then (st, v.2)
  else
    let r := searchFlights st formData
    (r.1, UiEffect.showLoadingSpinner :: r.2)

/-- Whether `searchFlights` ran: it is the only function that hides the
spinner. -/
def searchRan (effects : List UiEffect) : Bool :=
  effects.contains UiEffect.hideLoadingSpinner

/-! ## Flight selection (script.js 363-380) -/

/-- The function `openBookingModal(flightId)`. -/
def openBookingModal (st : AppState) (flightId : Int) : AppState × List UiEffect :=
  match st.currentFlights.find? (fun flight => flight.id == flightId) with
  | none =>
    ({ st with selectedFlight := none },
     [UiEffect.alert "Flight not found. Please try again." "danger"])
  | some flight =>
    ({ st with selectedFlight := some flight },
     [UiEffect.updateBookingSummary flight, UiEffect.showModal "bookingModal"])

/-! ## Specification-side predicates -/

/-- The matching condition of a catalog entry, as the specification words it:
same origin, same destination, same fare class. -/
def specMatch (r : FormData) (c : Flight) : Prop :=
  c.«from» = r.fromCity ∧ c.«to» = r.toCity ∧ c.«class» = r.flightClass

instance specMatchDecidable (r : FormData) (c : Flight) : Decidable (specMatch r c) := by
  unfold specMatch; infer_instance

/-- The integer `n` is `x` rounded to the nearest integer, a tie going up. -/
def IsRoundHalfUp (x : ℚ) (n : Int) : Prop :=
  x - 1 / 2 < n ∧ (n : ℚ) ≤ x + 1 / 2

/-- The validation condition of a search request as the specification words it:
cities non-empty, departure date present and, for a round trip, return date
present and not earlier than the departure date. -/
def specValid (r : FormData) : Prop :=
  r.fromCity ≠ "" ∧ r.toCity ≠ "" ∧ r.departureDate ≠ "" ∧
    (r.tripType = "round" → r.returnDate ≠ "" ∧ dateLt r.returnDate r.departureDate = false)

/-- The condition that `validateForm` tests: `specValid` without the order of
the two dates. -/
def formComplete (r : FormData) : Prop :=
  r.fromCity ≠ "" ∧ r.toCity ≠ "" ∧ r.departureDate ≠ "" ∧
    (r.tripType = "round" → r.returnDate ≠ "")

/-- A one-way request from NYC to NYC. -/
def sameCityRequest : SearchForm :=
  { tripType := "oneway", fromCity := "NYC", toCity := "NYC", departureDate := "2025-03-01",
    returnDate := "", passengers := "1", flightClass := "economy", returnDateMin := "" }

/-- A round trip whose return date precedes its departure date. -/
def backwardsRequest : SearchForm :=
  { tripType := "round", fromCity := "NYC", toCity := "LAX", departureDate := "2025-02-10",
    returnDate := "2025-02-01", passengers := "2", flightClass := "economy",
    returnDateMin := "" }

/-- The session state at page load (script.js 4-5). -/
def initialState : AppState := { currentFlights := [], selectedFlight := none }

/-! ## Passenger validation (script.js 447-464) -/

/-- The passenger object of `handleBookingConfirmation` (script.js 430-436). -/
structure PassengerData where
  firstName : String
  lastName : String
  email : String
  phone : String
  passport : String
  deriving DecidableEq, Repr

/-- Regular expressions over characters; `cls p` is a character class. -/
inductive Regex where
  | fail
  | eps
  | cls (p : Char → Bool)
  | alt (r s : Regex)
  | seq (r s : Regex)
  | star (r : Regex)

namespace Regex

/-- The quantifier `+`: one or more repetitions. -/
def plus (r : Regex) : Regex := seq r (star r)

/-- Whether the expression matches the empty string. -/
def nullable : Regex → Bool
  | fail => false
  | eps => true
  | cls _ => false
  | alt r s => r.nullable || s.nullable
  | seq r s => r.nullable && s.nullable
  | star _ => true

/-- The expression matching what remains after reading `c`. -/
def deriv : Regex → Char → Regex
  | fail, _ => fail
  | eps, _ => fail
  | cls p, c => if p c then eps else fail
  | alt r s, c => alt (r.deriv c) (s.deriv c)
  | seq r s, c => if r.nullable then alt (seq (r.deriv c) s) (s.deriv c) else seq (r.deriv c) s
  | star r, c => seq (r.deriv c) (star r)

/-- The method `test` of an expression anchored at both ends (`^...$`, no
flags): whether the whole string matches. -/
def test (r : Regex) (s : String) : Bool :=
  (s.data.foldl deriv r).nullable

/-- The strings an expression matches. -/
inductive Matches : Regex → List Char → Prop
  | eps : Matches eps []
  | cls (p : Char → Bool) (c : Char) : p c = true → Matches (cls p) [c]
  | altLeft (r s : Regex) (w : List Char) : Matches r w → Matches (alt r s) w
  | altRight (r s : Regex) (w : List Char) : Matches s w → Matches (alt r s) w
  | seq (r s : Regex) (u v : List Char) : Matches r u → Matches s v → Matches (seq r s) (u ++ v)
  | starNil (r : Regex) : Matches (star r) []
  | starCons (r : Regex) (u v : List Char) :
      Matches r u → Matches (star r) v → Matches (star r) (u ++ v)

end Regex

/-- The class `\s` of ECMAScript: white space and line terminators. -/
def isWhiteSpace (c : Char) : Bool :=
  let n := c.toNat
  n = 0x09 || n = 0x0A || n = 0x0B || n = 0x0C || n = 0x0D || n = 0x20 || n = 0xA0 ||
  n = 0x1680 || (0x2000 ≤ n && n ≤ 0x200A) || n = 0x2028 || n = 0x2029 || n = 0x202F ||
  n = 0x205F || n = 0x3000 || n = 0xFEFF

/-- The class `[^\s@]`. -/
def notSpaceAt (c : Char) : Bool := !(isWhiteSpace c || c == '@')

/-- The expression `/^[^\s@]+@[^\s@]+\.[^\s@]+$/` (script.js 457). -/
def emailRegex : Regex :=
  Regex.seq (Regex.plus (Regex.cls notSpaceAt))
    (Regex.seq (Regex.cls (· == '@'))
      (Regex.seq (Regex.plus (Regex.cls notSpaceAt))
        (Regex.seq (Regex.cls (· == '.')) (Regex.plus (Regex.cls notSpaceAt)))))

/-- The function `validatePassengerForm` (script.js 448-464); the `for...in`
loop visits the five properties in the order they were written. -/
def validatePassengerForm (data : PassengerData) : Bool × List UiEffect :=
  if [data.firstName, data.lastName, data.email, data.phone, data.passport].any (· == "") then
    (false, [UiEffect.alert "Please fill in all required fields." "danger"])
  else if !emailRegex.test data.email then
    (false, [UiEffect.alert "Please enter a valid email address." "danger"])
  else (true, [])

/-- The part of an address before its first `@`. -/
def localPart (email : List Char) : List Char := email.takeWhile (· != '@')

/-- The part of an address after its first `@`. -/
def domainPart (email : List Char) : List Char := (email.dropWhile (· != '@')).drop 1

/-- The shape `local@domain.tld` as the claim words it: no white space, exactly
one `@`, a non-empty part before it, and after it a part holding a `.` that is
neither its first nor its last character. -/
def EmailShape (email : String) : Prop :=
  (∀ c ∈ email.data, isWhiteSpace c = false) ∧
    email.data.count '@' = 1 ∧
    localPart email.data ≠ [] ∧
    ∃ i, 0 < i ∧ i + 1 < (domainPart email.data).length ∧
      (domainPart email.data)[i]? = some '.'

/-- A non-empty run of characters of the class `[^\s@]`. -/
def IsWord (w : List Char) : Prop := w ≠ [] ∧ ∀ c ∈ w, notSpaceAt c = true

/-- All five passenger fields are non-empty. -/
def AllFilled (data : PassengerData) : Prop :=
  data.firstName ≠ "" ∧ data.lastName ≠ "" ∧ data.email ≠ "" ∧ data.phone ≠ "" ∧
    data.passport ≠ ""

/-- A fully populated passenger record with the given e-mail address. -/
def janeDoe (email : String) : PassengerData :=
  { firstName := "Jane", lastName := "Doe", email := email, phone := "555-0100",
    passport := "P1234567" }

/-! ## Booking reference (script.js 498-506) -/

/-- The method `charAt`: the one-character string at `index`, the empty string
when `index` is out of range. -/
def charAt (s : String) (index : Int) : String :=
  if index < 0 then ""
  else match s.data[index.toNat]? with
    | some c => String.singleton c
    | none => ""

/-- The constant `chars` of `generateBookingReference`. -/
def chars : String := "ABCDEFGHIJKLMNOPQRSTUVWXYZ0123456789"

/-- The function `generateBookingReference`; `random i` is the number returned
by the `i`-th call of `Math.random()`, `fl` the rounding that `*` applies to
the exact product, and `Math.floor` is `⌊·⌋`. -/
def generateBookingReference (fl : ℚ → ℚ) (random : Nat → ℚ) : String :=
  let result := (List.range 6).foldl
    (fun result i => result ++ charAt chars ⌊fl (random i * (chars.length : ℚ))⌋) ""
  "SB" ++ result

/-- The arithmetic the reference is computed with: exact, or that of doubles
(the draws are doubles and the products are rounded to a nearest double). -/
def DrawArithmetic (fl : ℚ → ℚ) (random : Nat → ℚ) : Prop :=
  (∀ x, fl x = x) ∨ (IsNearestRounding fl ∧ ∀ i, i < 6 → IsDouble (random i))

/-- A character of `[A-Z0-9]`. -/
def isUpperOrDigit (c : Char) : Bool :=
  ('A' ≤ c && c ≤ 'Z') || ('0' ≤ c && c ≤ '9')

/-- The pattern `SB[A-Z0-9]{6}`, anchored at both ends. -/
def referenceRegex : Regex :=
  Regex.seq (Regex.cls (· == 'S')) (Regex.seq (Regex.cls (· == 'B'))
    (Regex.seq (Regex.cls isUpperOrDigit) (Regex.seq (Regex.cls isUpperOrDigit)
      (Regex.seq (Regex.cls isUpperOrDigit) (Regex.seq (Regex.cls isUpperOrDigit)
        (Regex.seq (Regex.cls isUpperOrDigit) (Regex.cls isUpperOrDigit)))))))

/-- Six draws that are doubles, the last as close to 1 as a double gets. -/
def sampleDraws (i : Nat) : ℚ :=
  match i with
  | 0 => 0
  | 1 => 1 / 8
  | 2 => 1 / 2
  | 3 => 3 / 4
  | 4 => 31 / 32
  | _ => 1 - 1 / 2 ^ 53

/-! ## Booking store (script.js 517-528) -/

/-- The values that `JSON.parse` returns and `JSON.stringify` writes. -/
inductive Json where
  | null
  | bool (b : Bool)
  | num (n : Int)
  | str (s : String)
  | arr (items : List Json)
  | obj (fields : List (String × Json))

/-- The two functions of the host object `JSON`. `parse` returns `none` where
the host throws a `SyntaxError`. -/
structure JsonHost where
  parse : String → Option Json
  stringify : Json → String

/-- The exceptions the store operation can end with. -/
inductive JsError where
  | syntaxError
  | typeError
  deriving DecidableEq, Repr

/-- The host object `localStorage`: the string held under each key, if any. -/
structure LocalStorage where
  getItem : String → Option String

/-- The method `localStorage.setItem`. -/
def LocalStorage.setItem (ls : LocalStorage) (key value : String) : LocalStorage :=
  { getItem := fun k => if k = key then some value else ls.getItem k }

/-- The object literal `booking` of `storeBooking` (script.js 520-525). -/
def bookingRecord (bookingRef : String) (passengerData flightData : Json) (now : String) : Json :=
  Json.obj [("reference", Json.str bookingRef), ("passenger", passengerData),
    ("flight", flightData), ("bookingDate", Json.str now)]

/-- The function `storeBooking` (script.js 518-528). `now` is the string
`new Date().toISOString()`. The text parsed is the stored item, or `"[]"` when
`getItem` returns `null` or the empty string (the two falsy results); `push` is
a method of arrays only, so any other parsed value ends in a `TypeError`. -/
def storeBooking (host : JsonHost) (now : String) (ls : LocalStorage) (bookingRef : String)
    (passengerData flightData : Json) : Except JsError LocalStorage :=
  let text : String :=
    match ls.getItem "flightBookings" with
    | some s => if s = "" then "[]" else s
    | none => "[]"
  match host.parse text with
  | none => Except.error JsError.syntaxError
  | some (Json.arr bookings) =>
    let booking := bookingRecord bookingRef passengerData flightData now
    Except.ok (ls.setItem "flightBookings" (host.stringify (Json.arr (bookings ++ [booking]))))
  | some _ => Except.error JsError.typeError

/-! ### A reference host

A `JSON` object for closed examples: it reads and writes the JSON grammar with
integer numbers and the two-character escapes (no fraction, exponent or `\u`
escape, which it rejects). -/

namespace RefJson

/-- Skip JSON white space. -/
def skipWs : List Char → List Char
  | c :: cs => if c = ' ' ∨ c = '\t' ∨ c = '\n' ∨ c = '\r' then skipWs cs else c :: cs
  | [] => []

/-- Read a string body up to its closing quote; `acc` holds the characters
read so far, last first. -/
def readString : List Char → List Char → Option (String × List Char)
  | _, [] => none
  | acc, '"' :: cs => some (String.mk acc.reverse, cs)
  | _, ['\\'] => none
  | acc, '\\' :: e :: cs =>
    if e = '"' then readString ('"' :: acc) cs
    else if e = '\\' then readString ('\\' :: acc) cs
    else if e = '/' then readString ('/' :: acc) cs
    else if e = 'b' then readString (Char.ofNat 8 :: acc) cs
    else if e = 'f' then readString (Char.ofNat 12 :: acc) cs
    else if e = 'n' then readString ('\n' :: acc) cs
    else if e = 'r' then readString ('\r' :: acc) cs
    else if e = 't' then readString ('\t' :: acc) cs
    else none
  | acc, c :: cs => if c.toNat < 32 then none else readString (c :: acc) cs

/-- Read a run of digits: its value and the rest. -/
def readDigits : Nat → List Char → Nat × List Char
  | n, c :: cs => if c.isDigit then readDigits (n * 10 + (c.toNat - 48)) cs else (n, c :: cs)
  | n, [] => (n, [])

/-- Read an integer: `0`, or a non-zero digit followed by digits, with an
optional minus sign. -/
def readNumber (cs : List Char) : Option (Json × List Char) :=
  let neg := cs.head? = some '-'
  let body := if neg then cs.drop 1 else cs
  match body with
  | [] => none
  | d :: ds =>
    if d = '0' then
      (if (ds.head?.map Char.isDigit) = some true then none else some (Json.num 0, ds))
    else if d.isDigit then
      let r := readDigits 0 (d :: ds)
      some (Json.num (if neg then -(r.1 : Int) else r.1), r.2)
    else none

/-- Read the elements of an array after the first bracket, `readValue` reading
one value; `n` bounds the number of elements. -/
def readElements (readValue : List Char → Option (Json × List Char)) :
    Nat → List Json → List Char → Option (List Json × List Char)
  | 0, _, _ => none
  | n + 1, acc, cs =>
    match readValue cs with
    | none => none
    | some (v, rest) =>
      match skipWs rest with
      | ',' :: rest1 => readElements readValue n (v :: acc) rest1
      | ']' :: rest1 => some ((v :: acc).reverse, rest1)
      | _ => none

/-- Read the members of an object after the first brace. -/
def readMembers (readValue : List Char → Option (Json × List Char)) :
    Nat → List (String × Json) → List Char → Option (List (String × Json) × List Char)
  | 0, _, _ => none
  | n + 1, acc, cs =>
    match skipWs cs with
    | '"' :: rest =>
      match readString [] rest with
      | none => none
      | some (key, rest1) =>
        match skipWs rest1 with
        | ':' :: rest2 =>
          match readValue rest2 with
          | none => none
          | some (v, rest3) =>
            match skipWs rest3 with
            | ',' :: rest4 => readMembers readValue n ((key, v) :: acc) rest4
            | '}' :: rest4 => some (((key, v) :: acc).reverse, rest4)
            | _ => none
        | _ => none
    | _ => none

/-- Read one JSON value; `depth` bounds the nesting. -/
def readValue : Nat → List Char → Option (Json × List Char)
  | 0, _ => none
  | depth + 1, cs =>
    match skipWs cs with
    | 'n' :: 'u' :: 'l' :: 'l' :: rest => some (Json.null, rest)
    | 't' :: 'r' :: 'u' :: 'e' :: rest => some (Json.bool true, rest)
    | 'f' :: 'a' :: 'l' :: 's' :: 'e' :: rest => some (Json.bool false, rest)
    | '"' :: rest => (readString [] rest).map fun r => (Json.str r.1, r.2)
    | '[' :: rest =>
      match skipWs rest with
      | ']' :: rest1 => some (Json.arr [], rest1)
      | _ => (readElements (readValue depth) rest.length [] rest).map fun r => (Json.arr r.1, r.2)
    | '{' :: rest =>
      match skipWs rest with
      | '}' :: rest1 => some (Json.obj [], rest1)
      | _ => (readMembers (readValue depth) rest.length [] rest).map fun r => (Json.obj r.1, r.2)
    | other => readNumber other

/-- The function `JSON.parse`: one value, white space around it, nothing after. -/
def parse (text : String) : Option Json :=
  match readValue (text.length + 1) text.data with
  | some (v, rest) => if skipWs rest = [] then some v else none
  | none => none

/-- Write the characters of a string with the escapes of `JSON.stringify`. -/
def quote (s : String) : String :=
  "\"" ++ String.join (s.data.map fun c =>
    if c = '"' then "\\\"" else if c = '\\' then "\\\\" else if c = '\n' then "\\n"
    else if c = '\r' then "\\r" else if c = '\t' then "\\t" else if c = Char.ofNat 8 then "\\b"
    else if c = Char.ofNat 12 then "\\f" else String.singleton c) ++ "\""

mutual
/-- The function `JSON.stringify`, without indentation. -/
def write : Json → String
  | Json.null => "null"
  | Json.bool b => if b then "true" else "false"
  | Json.num n => toString n
  | Json.str s => quote s
  | Json.arr items => "[" ++ ",".intercalate (writeItems items) ++ "]"
  | Json.obj fields => "\x7b" ++ ",".intercalate (writeFields fields) ++ "\x7d"
/-- The elements of an array, written one by one. -/
def writeItems : List Json → List String
  | [] => []
  | v :: vs => write v :: writeItems vs
/-- The members of an object, written one by one. -/
def writeFields : List (String × Json) → List String
  | [] => []
  | (k, v) :: kvs => (quote k ++ ":" ++ write v) :: writeFields kvs
end

end RefJson

/-- The reference host. -/
def refHost : JsonHost := { parse := RefJson.parse, stringify := RefJson.write }

/-- A store with nothing under any key. -/
def emptyStorage : LocalStorage := { getItem := fun _ => none }

/-- A store whose bookings item is not JSON text. -/
def corruptStorage : LocalStorage := emptyStorage.setItem "flightBookings" "not json"

/-- A store whose bookings item is JSON text of an object, not of a list. -/
def objectStorage : LocalStorage := emptyStorage.setItem "flightBookings" "\x7b\x7d"

/-- A passenger object as `JSON` sees it. -/
def samplePassenger : Json :=
  Json.obj [("firstName", Json.str "Jane"), ("lastName", Json.str "Doe"),
    ("email", Json.str "jane@x.com"), ("phone", Json.str "555-0100"),
    ("passport", Json.str "P1234567")]

/-- A selected flight as `JSON` sees it (some of its properties). -/
def sampleFlight : Json :=
  Json.obj [("id", Json.num 2), ("airline", Json.str "AirConnect"), ("price", Json.num 349)]

/-- The value of property `key` of a JSON object, if the value is an object
with that property. -/
def Json.getField (v : Json) (key : String) : Option Json :=
  match v with
  | Json.obj fields => (fields.find? fun kv => kv.1 == key).map Prod.snd
  | _ => none

/-- The time stamp used in the closed examples. -/
def sampleNow : String := "2025-01-01T00:00:00.000Z"

/-- A store already holding one booking, as `storeBooking` wrote it. -/
def oneBookingStorage : LocalStorage :=
  emptyStorage.setItem "flightBookings" (refHost.stringify
    (Json.arr [bookingRecord "SBABC123" samplePassenger sampleFlight sampleNow]))

/-- A business request from NYC to LAX. -/
def businessRequest : FormData :=
  { tripType := "oneway", fromCity := "NYC", toCity := "LAX", departureDate := "2025-03-01",
    returnDate := "", passengers := "1", flightClass := "business" }

/-- A business flight whose base price is the integer `2^52 + 1`. -/
def hugePriceFlight : Flight :=
  { id := 7, airline := "SkyWings", flightNumber := "SW900", «from» := "NYC", «to» := "LAX",
    departureTime := "08:30", arrivalTime := "11:45", duration := "5h 15m",
    price := 4503599627370497, «class» := "business", features := [] }

/-- A business flight whose base price is 299.25. -/
def quarterPriceFlight : Flight :=
  { id := 8, airline := "SkyWings", flightNumber := "SW901", «from» := "NYC", «to» := "LAX",
    departureTime := "08:30", arrivalTime := "11:45", duration := "5h 15m",
    price := 1197 / 4, «class» := "business", features := [] }

/-- An economy request from NYC to LAX for two passengers. -/
def nycRequest : FormData :=
  { tripType := "round", fromCity := "NYC", toCity := "LAX", departureDate := "2025-03-01",
    returnDate := "2025-03-08", passengers := "2", flightClass := "economy" }

/-- An economy request from CHI to MIA. -/
def chiRequest : FormData :=
  { tripType := "oneway", fromCity := "CHI", toCity := "MIA", departureDate := "2025-03-01",
    returnDate := "", passengers := "1", flightClass := "economy" }

/-- The session after a search NYC to LAX, the selection of flight 2 and a
second search, CHI to MIA. -/
def staleState : AppState :=
  (searchFlights (openBookingModal (searchFlights initialState nycRequest).1 2).1 chiRequest).1

/-! # Properties -/

/-! ## Search and pricing -/

theorem flightMatches_iff (r : FormData) (c : Flight) :
    flightMatches r c = true ↔ specMatch r c := by
  simp [flightMatches, specMatch, and_assoc]

theorem strip_processFlight (r : FormData) (c : Flight) :
    (processFlight r c).strip c.price = c := rfl

theorem filter_flightMatches (catalog : List Flight) (r : FormData) :
    catalog.filter (flightMatches r) = catalog.filter (fun c => decide (specMatch r c)) := by
  apply List.filter_congr
  intro c _
  by_cases h : specMatch r c
  · simp [h, (flightMatches_iff r c).2 h]
  · have : flightMatches r c ≠ true := fun h' => h ((flightMatches_iff r c).1 h')
    simp [h, this]

theorem forall₂_map_left {α β : Type} (R : β → α → Prop) (f : α → β) (l : List α)
    (h : ∀ a ∈ l, R (f a) a) : List.Forall₂ R (l.map f) l := by
  induction l with
  | nil => exact List.Forall₂.nil
  | cons a l ih =>
    exact List.Forall₂.cons (h a (List.mem_cons_self a l))
      (ih fun b hb => h b (List.mem_cons_of_mem a hb))

/-- Claim C1: the flights produced by `searchFlights` are, in catalog order,
exactly the catalog entries that match the request on origin, destination and
fare class; each result is its catalog entry once `price` is put back and
`searchData` dropped, and a catalog entry is included iff it matches. -/
theorem searchFlights_is_filter (catalog : List Flight) (r : FormData) :
    List.Forall₂ (fun p c => p.strip c.price = c ∧ p.searchData = r)
        (searchFlightsOn catalog r) (catalog.filter fun c => decide (specMatch r c)) ∧
      (∀ c ∈ catalog, (∃ p ∈ searchFlightsOn catalog r, p.strip c.price = c) ↔ specMatch r c) ∧
      ∀ st, (searchFlights st r).1.currentFlights = searchFlightsOn mockFlightData r := by
  refine ⟨?_, ?_, fun _ => rfl⟩
  · rw [← filter_flightMatches]
    exact forall₂_map_left _ _ _ fun c _ => ⟨rfl, rfl⟩
  · intro c hc
    constructor
    · rintro ⟨p, hp, hpc⟩
      obtain ⟨c', hc', rfl⟩ := List.mem_map.1 hp
      have hm := (flightMatches_iff r c').1 (List.mem_filter.1 hc').2
      have h1 : c'.«from» = c.«from» := (congrArg Flight.«from» hpc : _)
      have h2 : c'.«to» = c.«to» := (congrArg Flight.«to» hpc : _)
      have h3 : c'.«class» = c.«class» := (congrArg Flight.«class» hpc : _)
      exact ⟨h1 ▸ hm.1, h2 ▸ hm.2.1, h3 ▸ hm.2.2⟩
    · intro h
      exact ⟨processFlight r c, List.mem_map.2 ⟨c, List.mem_filter.2 ⟨hc, (flightMatches_iff r c).2 h⟩, rfl⟩, rfl⟩

theorem mathRound_isRoundHalfUp (x : ℚ) : IsRoundHalfUp x (mathRound x) := by
  unfold IsRoundHalfUp mathRound
  constructor
  · have := Int.lt_floor_add_one (x + 1 / 2)
    linarith
  · exact Int.floor_le (x + 1 / 2)

theorem mathRound_intCast (n : Int) : mathRound (n : ℚ) = n := by
  unfold mathRound
  rw [Int.floor_int_add]
  norm_num

theorem roundHalfEven_intCast (n : Int) : roundHalfEven (n : ℚ) = n := by
  unfold roundHalfEven
  simp

theorem roundHalfEven_scaled (m : Int) (k E : Int) (hE : E ≤ k) :
    (roundHalfEven ((m : ℚ) * 2 ^ k / 2 ^ E) : ℚ) * 2 ^ E = (m : ℚ) * 2 ^ k := by
  obtain ⟨j, hj⟩ : ∃ j : Nat, k = E + j := ⟨(k - E).toNat, by omega⟩
  have h2 : (2 : ℚ) ^ E ≠ 0 := zpow_ne_zero _ (by norm_num)
  have hdiv : (m : ℚ) * 2 ^ k / 2 ^ E = ((m * 2 ^ j : Int) : ℚ) := by
    rw [hj, zpow_add₀ (by norm_num), zpow_natCast]
    push_cast
    field_simp
    ring
  rw [hdiv, roundHalfEven_intCast, hj, zpow_add₀ (by norm_num), zpow_natCast]
  push_cast
  ring

theorem ulpExponent_le (m : Int) (p q : Nat) (hm : |m| < 2 ^ 53) (hm0 : m ≠ 0) (hq : q ≤ 1074) :
    ulpExponent ((m : ℚ) * 2 ^ ((p : Int) - q)) ≤ (p : Int) - q := by
  have hxpos : 0 < |(m : ℚ) * 2 ^ ((p : Int) - q)| := by
    rw [abs_pos]
    exact mul_ne_zero (by exact_mod_cast hm0) (zpow_ne_zero _ (by norm_num))
  have hlt : |(m : ℚ) * 2 ^ ((p : Int) - q)| < ((2 : Nat) : ℚ) ^ (53 + ((p : Int) - q)) := by
    rw [abs_mul, abs_of_pos (zpow_pos (by norm_num : (0 : ℚ) < 2) _), zpow_add₀ (by norm_num)]
    have : |(m : ℚ)| < ((2 : Nat) : ℚ) ^ (53 : Int) := by
      have h1 : ((|m| : Int) : ℚ) < ((2 ^ 53 : Int) : ℚ) := Int.cast_lt.2 hm
      rw [Int.cast_abs] at h1
      norm_num at h1 ⊢
      exact h1
    have h2 : (0 : ℚ) < ((2 : Nat) : ℚ) ^ ((p : Int) - q) := zpow_pos (by norm_num) _
    have := mul_lt_mul_of_pos_right this h2
    norm_num at this ⊢
    exact this
  have hlog := (Int.lt_zpow_iff_log_lt (b := 2) (by norm_num) hxpos).1 hlt
  unfold ulpExponent
  rcases max_cases (Int.log 2 |(m : ℚ) * 2 ^ ((p : Int) - q)|) (-1022) with ⟨h1, _⟩ | ⟨h1, _⟩ <;>
    rw [h1] <;> omega

/-- Rounding leaves a double as it is: a product that is itself a double is
computed exactly. -/
theorem roundToDouble_of_isDouble (x : ℚ) (h : IsDouble x) : roundToDouble x = x := by
  obtain ⟨m, p, q, hm, hp, hq, rfl⟩ := h
  by_cases hm0 : m = 0
  · subst hm0
    simp [roundToDouble, roundHalfEven]
  have hxk : (m : ℚ) * 2 ^ p / 2 ^ q = (m : ℚ) * (2 : ℚ) ^ ((p : Int) - q) := by
    rw [zpow_sub₀ (by norm_num), zpow_natCast, zpow_natCast, mul_div_assoc]
  rw [hxk]
  unfold roundToDouble
  exact roundHalfEven_scaled m _ _ (ulpExponent_le m p q hm hm0 hq)

theorem roundHalfEven_close (y : ℚ) : |(roundHalfEven y : ℚ) - y| ≤ 1 / 2 := by
  have h1 := Int.floor_le y
  have h2 := Int.lt_floor_add_one y
  unfold roundHalfEven
  rw [abs_le]
  split_ifs with ha hb hc
  · constructor <;> linarith
  · push_cast; constructor <;> linarith
  · push_neg at ha hb; constructor <;> linarith
  · push_neg at ha hb; push_cast; constructor <;> linarith

theorem roundHalfEven_nearest (y : ℚ) (N : Int) :
    |(roundHalfEven y : ℚ) - y| ≤ |(N : ℚ) - y| := by
  by_contra hlt
  push_neg at hlt
  have hc := roundHalfEven_close y
  have h1 : |(N : ℚ) - roundHalfEven y| < 1 := by
    have : (N : ℚ) - roundHalfEven y = ((N : ℚ) - y) - ((roundHalfEven y : ℚ) - y) := by ring
    rw [this]
    calc |((N : ℚ) - y) - ((roundHalfEven y : ℚ) - y)|
        ≤ |(N : ℚ) - y| + |(roundHalfEven y : ℚ) - y| := abs_sub _ _
      _ < 1 := by linarith
  have h2 : |N - roundHalfEven y| < 1 := by
    have : ((|N - roundHalfEven y| : Int) : ℚ) < ((1 : Int) : ℚ) := by
      push_cast
      exact h1
    exact_mod_cast this
  have h3 : N = roundHalfEven y := by
    have := abs_lt.1 h2
    omega
  rw [h3] at hlt
  exact lt_irrefl _ hlt

/-- No multiple of the unit in the last place is nearer to `x` than
`roundToDouble x`. -/
theorem roundToDouble_nearest_multiple (x : ℚ) (N : Int) :
    |roundToDouble x - x| ≤ |(N : ℚ) * 2 ^ ulpExponent x - x| := by
  have hu : (0 : ℚ) < 2 ^ ulpExponent x := zpow_pos (by norm_num) _
  have e1 : roundToDouble x - x =
      ((roundHalfEven (x / 2 ^ ulpExponent x) : ℚ) - x / 2 ^ ulpExponent x) * 2 ^ ulpExponent x := by
    unfold roundToDouble
    field_simp
  have e2 : (N : ℚ) * 2 ^ ulpExponent x - x =
      ((N : ℚ) - x / 2 ^ ulpExponent x) * 2 ^ ulpExponent x := by
    field_simp
  rw [e1, e2, abs_mul, abs_mul, abs_of_pos hu]
  exact mul_le_mul_of_nonneg_right (roundHalfEven_nearest _ N) hu.le

theorem roundToDouble_zero : roundToDouble 0 = 0 := by
  simp [roundToDouble, roundHalfEven]

theorem ulpExponent_ge (x : ℚ) : -1074 ≤ ulpExponent x := by
  unfold ulpExponent
  have := le_max_right (Int.log 2 |x|) (-1022)
  omega

theorem ulpExponent_ge_log (x : ℚ) : Int.log 2 |x| - 52 ≤ ulpExponent x := by
  unfold ulpExponent
  have := le_max_left (Int.log 2 |x|) (-1022)
  omega

theorem two_zpow_log_le (x : ℚ) (hx : x ≠ 0) : (2 : ℚ) ^ Int.log 2 |x| ≤ |x| := by
  have := Int.zpow_log_le_self (b := 2) (r := |x|) (by norm_num) (abs_pos.2 hx)
  exact_mod_cast this

theorem lt_two_zpow_log_succ (x : ℚ) : |x| < (2 : ℚ) ^ (Int.log 2 |x| + 1) := by
  have := Int.lt_zpow_succ_log_self (b := 2) (by norm_num) |x|
  exact_mod_cast this

/-- No number of the form `m * 2^k` with `|m| ≤ 2^53` and `k ≥ -1074` is nearer
to `x` than `roundToDouble x`. -/
theorem roundToDouble_nearest (x : ℚ) (m k : Int) (hm : |m| ≤ 2 ^ 53) (hk : -1074 ≤ k) :
    |roundToDouble x - x| ≤ |(m : ℚ) * 2 ^ k - x| := by
  by_cases hx0 : x = 0
  · subst hx0
    rw [roundToDouble_zero]
    simp
  by_cases hkE : ulpExponent x ≤ k
  · obtain ⟨j, hj⟩ : ∃ j : Nat, k = ulpExponent x + j := ⟨(k - ulpExponent x).toNat, by omega⟩
    have := roundToDouble_nearest_multiple x (m * 2 ^ j)
    have e : (m : ℚ) * 2 ^ k = ((m * 2 ^ j : Int) : ℚ) * 2 ^ ulpExponent x := by
      rw [hj, zpow_add₀ (by norm_num), zpow_natCast]
      push_cast
      ring
    rw [e]
    exact this
  · push_neg at hkE
    have hE : ulpExponent x = Int.log 2 |x| - 52 := by
      unfold ulpExponent at hkE ⊢
      rcases max_cases (Int.log 2 |x|) (-1022) with ⟨h1, _⟩ | ⟨h1, _⟩
      · rw [h1]
      · rw [h1] at hkE; omega
    have hL := two_zpow_log_le x hx0
    have hd : |(m : ℚ) * 2 ^ k| ≤ (2 : ℚ) ^ Int.log 2 |x| := by
      rw [abs_mul, abs_of_pos (zpow_pos (by norm_num : (0 : ℚ) < 2) k)]
      have hmq : |(m : ℚ)| ≤ 2 ^ (53 : Int) := by
        have h1 : ((|m| : Int) : ℚ) ≤ ((2 ^ 53 : Int) : ℚ) := Int.cast_le.2 hm
        rw [Int.cast_abs] at h1
        norm_num at h1 ⊢
        exact h1
      calc |(m : ℚ)| * 2 ^ k ≤ 2 ^ (53 : Int) * 2 ^ k :=
            mul_le_mul_of_nonneg_right hmq (zpow_pos (by norm_num) k).le
        _ = (2 : ℚ) ^ (53 + k) := by rw [zpow_add₀ (by norm_num)]
        _ ≤ (2 : ℚ) ^ Int.log 2 |x| := zpow_le_zpow_right₀ (by norm_num) (by omega)
    have hpow : (2 : ℚ) ^ Int.log 2 |x| = 2 ^ (52 : Int) * 2 ^ ulpExponent x := by
      rw [← zpow_add₀ (by norm_num), hE]
      congr 1
      omega
    have hg : ∃ N : Int, |(N : ℚ) * 2 ^ ulpExponent x - x| = |x| - 2 ^ Int.log 2 |x| := by
      rcases lt_or_gt_of_ne hx0 with hneg | hpos
      · refine ⟨-2 ^ 52, ?_⟩
        have hax : |x| = -x := abs_of_neg hneg
        rw [hax] at hL ⊢
        have : ((-2 ^ 52 : Int) : ℚ) * 2 ^ ulpExponent x = -(2 : ℚ) ^ Int.log 2 (-x) := by
          rw [hax] at hpow
          rw [hpow]; push_cast; norm_num
        rw [this, abs_of_nonneg (by linarith)]
        ring
      · refine ⟨2 ^ 52, ?_⟩
        have hax : |x| = x := abs_of_pos hpos
        rw [hax] at hL ⊢
        have : ((2 ^ 52 : Int) : ℚ) * 2 ^ ulpExponent x = (2 : ℚ) ^ Int.log 2 x := by
          rw [hax] at hpow
          rw [hpow]; push_cast; norm_num
        rw [this, abs_of_nonpos (by linarith)]
        ring
    obtain ⟨N, hN⟩ := hg
    have h1 := roundToDouble_nearest_multiple x N
    rw [hN] at h1
    have h2 : |x| - |(m : ℚ) * 2 ^ k| ≤ |(m : ℚ) * 2 ^ k - x| := by
      rw [abs_sub_comm]
      exact abs_sub_abs_le_abs_sub x _
    linarith

/-- Every value of `roundToDouble` has the form `m * 2^k` with `|m| ≤ 2^53` and
`k ≥ -1074`. -/
theorem roundToDouble_form (x : ℚ) :
    ∃ m k : Int, |m| ≤ 2 ^ 53 ∧ -1074 ≤ k ∧ roundToDouble x = (m : ℚ) * 2 ^ k := by
  refine ⟨roundHalfEven (x / 2 ^ ulpExponent x), ulpExponent x, ?_, ulpExponent_ge x, rfl⟩
  have hu : (0 : ℚ) < 2 ^ ulpExponent x := zpow_pos (by norm_num) _
  have hy : |x / 2 ^ ulpExponent x| < 2 ^ (53 : Int) := by
    rw [abs_div, abs_of_pos hu, div_lt_iff₀ hu, ← zpow_add₀ (by norm_num)]
    calc |x| < (2 : ℚ) ^ (Int.log 2 |x| + 1) := lt_two_zpow_log_succ x
      _ ≤ (2 : ℚ) ^ (53 + ulpExponent x) :=
        zpow_le_zpow_right₀ (by norm_num) (by have := ulpExponent_ge_log x; omega)
  have hc := roundHalfEven_close (x / 2 ^ ulpExponent x)
  have h1 : |(roundHalfEven (x / 2 ^ ulpExponent x) : ℚ)| < 2 ^ (53 : Int) + 1 := by
    have : (roundHalfEven (x / 2 ^ ulpExponent x) : ℚ) =
        ((roundHalfEven (x / 2 ^ ulpExponent x) : ℚ) - x / 2 ^ ulpExponent x) +
          x / 2 ^ ulpExponent x := by ring
    rw [this]
    calc |((roundHalfEven (x / 2 ^ ulpExponent x) : ℚ) - x / 2 ^ ulpExponent x) +
          x / 2 ^ ulpExponent x|
        ≤ |(roundHalfEven (x / 2 ^ ulpExponent x) : ℚ) - x / 2 ^ ulpExponent x| +
          |x / 2 ^ ulpExponent x| := abs_add _ _
      _ < 2 ^ (53 : Int) + 1 := by linarith
  have h2 : ((|roundHalfEven (x / 2 ^ ulpExponent x)| : Int) : ℚ) < ((2 ^ 53 + 1 : Int) : ℚ) := by
    rw [Int.cast_abs]
    norm_num at h1 ⊢
    exact h1
  have h3 : |roundHalfEven (x / 2 ^ ulpExponent x)| < 2 ^ 53 + 1 := Int.cast_lt.1 h2
  omega

/-- The rounding is monotone. -/
theorem roundToDouble_mono (x y : ℚ) (hxy : x ≤ y) : roundToDouble x ≤ roundToDouble y := by
  by_contra hlt
  push_neg at hlt
  obtain ⟨m, k, hm, hk, hx⟩ := roundToDouble_form x
  obtain ⟨n, j, hn, hj, hy⟩ := roundToDouble_form y
  have h1 := roundToDouble_nearest x n j hn hj
  have h2 := roundToDouble_nearest y m k hm hk
  rw [← hy] at h1
  rw [← hx] at h2
  have s1 := sq_le_sq.2 h1
  have s2 := sq_le_sq.2 h2
  have hmid1 : roundToDouble x + roundToDouble y ≤ 2 * x := by nlinarith
  have hmid2 : 2 * y ≤ roundToDouble x + roundToDouble y := by nlinarith
  have hxy' : x = y := le_antisymm hxy (by linarith)
  rw [hxy'] at hlt
  exact lt_irrefl _ hlt

/-- The rounding of the model is a nearest rounding in the sense used for
`generateBookingReference`. -/
theorem roundToDouble_isNearestRounding : IsNearestRounding roundToDouble := by
  refine ⟨roundToDouble_mono, fun x _ d hd => ?_⟩
  obtain ⟨m, p, q, hm, -, hq, rfl⟩ := hd
  have e : (m : ℚ) * 2 ^ p / 2 ^ q = (m : ℚ) * (2 : ℚ) ^ ((p : Int) - q) := by
    rw [zpow_sub₀ (by norm_num), zpow_natCast, zpow_natCast, mul_div_assoc]
  rw [e]
  exact roundToDouble_nearest x m _ hm.le (by omega)

/-- The product of an integer below `2^50` in size with a class multiplier is a
double. -/
theorem isDouble_int_mul (n : Int) (hn : |n| < 2 ^ 50) (flightClass : String) (m : ℚ)
    (h : classMultiplier flightClass = some m) : IsDouble ((n : ℚ) * m) := by
  have h5 : |5 * n| < 2 ^ 53 := by
    rw [abs_mul]; norm_num
    have := abs_nonneg n
    omega
  have h1 : |n| < 2 ^ 53 := lt_trans hn (by norm_num)
  unfold classMultiplier at h
  split_ifs at h
  · rw [← Option.some.inj h]
    exact ⟨n, 0, 0, h1, by omega, by omega, by norm_num⟩
  · rw [← Option.some.inj h]
    exact ⟨5 * n, 0, 1, h5, by omega, by omega, by push_cast; ring⟩
  · rw [← Option.some.inj h]
    exact ⟨n, 2, 0, h1, by omega, by omega, by norm_num⟩

theorem adjustedPrice_eq (r : FormData) (c : Flight) (m : ℚ)
    (h : classMultiplier r.flightClass = some m) (hd : IsDouble (c.price * m)) :
    adjustedPrice r c = c.price * m := by
  unfold classMultiplier at h
  unfold adjustedPrice
  by_cases h1 : r.flightClass = "economy"
  · have hb : r.flightClass ≠ "business" := by rw [h1]; decide
    have hf : r.flightClass ≠ "first" := by rw [h1]; decide
    rw [if_pos h1] at h
    rw [if_neg hb, if_neg hf, ← Option.some.inj h, mul_one]
  · rw [if_neg h1] at h
    by_cases h2 : r.flightClass = "business"
    · rw [if_pos h2] at h
      rw [← Option.some.inj h] at hd ⊢
      rw [if_pos h2, roundToDouble_of_isDouble _ hd]
    · rw [if_neg h2] at h
      by_cases h3 : r.flightClass = "first"
      · rw [if_pos h3] at h
        rw [← Option.some.inj h] at hd ⊢
        rw [if_neg h2, if_pos h3, roundToDouble_of_isDouble _ hd]
      · rw [if_neg h3] at h
        cases h

theorem processFlight_price_economy (r : FormData) (c : Flight)
    (h : r.flightClass = "economy") : (processFlight r c).price = mathRound c.price := by
  have hb : r.flightClass ≠ "business" := by rw [h]; decide
  have hf : r.flightClass ≠ "first" := by rw [h]; decide
  show mathRound (adjustedPrice r c) = mathRound c.price
  unfold adjustedPrice
  rw [if_neg hb, if_neg hf]

theorem int_log_eq (x : ℚ) (z : Int) (hlo : (2 : ℚ) ^ z ≤ x) (hhi : x < (2 : ℚ) ^ (z + 1)) :
    Int.log 2 x = z := by
  have hpos : 0 < x := lt_of_lt_of_le (zpow_pos (by norm_num) z) hlo
  have h1 : z ≤ Int.log 2 x :=
    (Int.zpow_le_iff_le_log (b := 2) (by norm_num) hpos).1 (by exact_mod_cast hlo)
  have h2 : Int.log 2 x < z + 1 :=
    (Int.lt_zpow_iff_log_lt (b := 2) (by norm_num) hpos).1 (by exact_mod_cast hhi)
  omega

theorem roundToDouble_huge :
    roundToDouble (4503599627370497 * (5 / 2)) = 11258999068426242 := by
  have hlog : Int.log 2 |(4503599627370497 * (5 / 2) : ℚ)| = 53 := by
    rw [abs_of_pos (by norm_num)]
    exact int_log_eq _ 53 (by norm_num) (by norm_num)
  have hE : ulpExponent (4503599627370497 * (5 / 2)) = 1 := by
    unfold ulpExponent
    rw [hlog]
    rfl
  unfold roundToDouble
  rw [hE]
  have hfloor : ⌊(4503599627370497 * (5 / 2) / 2 ^ (1 : Int) : ℚ)⌋ = 5629499534213121 := by
    rw [Int.floor_eq_iff]
    norm_num
  have hr : roundHalfEven (4503599627370497 * (5 / 2) / 2 ^ (1 : Int)) = 5629499534213121 := by
    unfold roundHalfEven
    rw [hfloor, if_pos (by norm_num)]
  rw [hr]
  norm_num

/-- Claim C2 as stated fails: for the integer base price `2^52 + 1` and class
business the exact product is 11258999068426242.5, which the multiplication
rounds to the double 11258999068426242 before `Math.round`; the price is that
number and not the product rounded half-up, 11258999068426243. -/
theorem huge_price_not_half_up :
    searchFlightsOn [hugePriceFlight] businessRequest =
        [processFlight businessRequest hugePriceFlight] ∧
      classMultiplier businessRequest.flightClass = some (5 / 2) ∧
      (processFlight businessRequest hugePriceFlight).price = 11258999068426242 ∧
      ¬ IsRoundHalfUp (hugePriceFlight.price * (5 / 2))
        (processFlight businessRequest hugePriceFlight).price := by
  have hprice : (processFlight businessRequest hugePriceFlight).price = 11258999068426242 := by
    show mathRound (adjustedPrice businessRequest hugePriceFlight) = 11258999068426242
    have : adjustedPrice businessRequest hugePriceFlight =
        roundToDouble (4503599627370497 * (5 / 2)) := by
      unfold adjustedPrice
      rw [if_pos (by decide)]
      rfl
    rw [this, roundToDouble_huge]
    exact mathRound_intCast 11258999068426242
  refine ⟨rfl, rfl, hprice, ?_⟩
  rw [hprice]
  intro h
  have h1 := h.1
  have hp : hugePriceFlight.price = 4503599627370497 := rfl
  rw [hp] at h1
  norm_num at h1

/-- Claim C2, amended: the price of every flight in the result whose base price
times the multiplier of the requested fare class (1, 2.5, 4) is a double is
that product rounded half-up; the product is a double for every integer base
price below `2^50` in size. For every integer base price the economy price is
the base price, and for base 299 the economy, business and first prices are
299, 748 and 1196. -/
theorem searchFlights_price (catalog : List Flight) (r : FormData) :
    List.Forall₂
        (fun p c => ∀ m, classMultiplier r.flightClass = some m → IsDouble (c.price * m) →
          IsRoundHalfUp (c.price * m) p.price)
        (searchFlightsOn catalog r) (catalog.filter fun c => decide (specMatch r c)) ∧
      (∀ (n : Int) (m : ℚ), |n| < 2 ^ 50 → classMultiplier r.flightClass = some m →
        IsDouble ((n : ℚ) * m)) ∧
      (∀ (c : Flight) (n : Int), c.price = n → r.flightClass = "economy" →
        (processFlight r c).price = n) ∧
      ∀ c : Flight, c.price = 299 →
        (r.flightClass = "economy" → (processFlight r c).price = 299) ∧
        (r.flightClass = "business" → (processFlight r c).price = 748) ∧
        (r.flightClass = "first" → (processFlight r c).price = 1196) := by
  have h299 : ∀ (c : Flight) (m : ℚ), c.price = 299 → classMultiplier r.flightClass = some m →
      adjustedPrice r c = 299 * m := by
    intro c m hc hm
    have hd : IsDouble (c.price * m) := by
      rw [hc]
      have := isDouble_int_mul 299 (by norm_num) r.flightClass m hm
      exact_mod_cast this
    rw [adjustedPrice_eq r c m hm hd, hc]
  refine ⟨?_, fun n m hn hm => isDouble_int_mul n hn r.flightClass m hm, ?_, ?_⟩
  · rw [← filter_flightMatches]
    refine forall₂_map_left _ _ _ fun c _ m hm hd => ?_
    show IsRoundHalfUp _ (mathRound (adjustedPrice r c))
    rw [← adjustedPrice_eq r c m hm hd]
    exact mathRound_isRoundHalfUp _
  · intro c n hc h
    rw [processFlight_price_economy r c h, hc, mathRound_intCast]
  · intro c hc
    refine ⟨fun h => ?_, fun h => ?_, fun h => ?_⟩
    · show mathRound (adjustedPrice r c) = 299
      rw [h299 c 1 hc (by simp [classMultiplier, h])]
      norm_num [mathRound]
    · show mathRound (adjustedPrice r c) = 748
      rw [h299 c (5 / 2) hc (by simp [classMultiplier, h])]
      norm_num [mathRound]
    · show mathRound (adjustedPrice r c) = 1196
      rw [h299 c 4 hc (by simp [classMultiplier, h])]
      norm_num [mathRound]

/-- The amended claim on a base price that is not an integer: 299.25 in
business class gives the double 748.125 and the price 748. -/
theorem searchFlights_price_witness :
    classMultiplier businessRequest.flightClass = some (5 / 2) ∧
      IsDouble (quarterPriceFlight.price * (5 / 2)) ∧
      IsRoundHalfUp (quarterPriceFlight.price * (5 / 2))
        (processFlight businessRequest quarterPriceFlight).price ∧
      (processFlight businessRequest quarterPriceFlight).price = 748 := by
  have hm : classMultiplier businessRequest.flightClass = some (5 / 2) := rfl
  have hd : IsDouble (quarterPriceFlight.price * (5 / 2)) :=
    ⟨5985, 0, 3, by norm_num, by omega, by omega, by norm_num [quarterPriceFlight]⟩
  have hall := (searchFlights_price [quarterPriceFlight] businessRequest).1
  have hres : searchFlightsOn [quarterPriceFlight] businessRequest =
      [processFlight businessRequest quarterPriceFlight] := rfl
  have hfil : ([quarterPriceFlight].filter fun c => decide (specMatch businessRequest c)) =
      [quarterPriceFlight] := rfl
  rw [hres, hfil] at hall
  have hround := (List.forall₂_cons.1 hall).1 (5 / 2) hm hd
  refine ⟨hm, hd, hround, ?_⟩
  have h1 := hround.1
  have h2 := hround.2
  have hp : quarterPriceFlight.price * (5 / 2) = 5985 / 8 := by norm_num [quarterPriceFlight]
  rw [hp] at h1 h2
  have h3 : (747 : ℚ) < (processFlight businessRequest quarterPriceFlight).price := by linarith
  have h4 : ((processFlight businessRequest quarterPriceFlight).price : ℚ) < 749 := by linarith
  have h5 : (747 : Int) < (processFlight businessRequest quarterPriceFlight).price := by
    exact_mod_cast h3
  have h6 : (processFlight businessRequest quarterPriceFlight).price < (749 : Int) := by
    exact_mod_cast h4
  omega

theorem mock_match_economy (r : FormData) (c : Flight) (hc : c ∈ mockFlightData)
    (hm : flightMatches r c = true) :
    r.fromCity = "NYC" ∧ r.toCity = "LAX" ∧ r.flightClass = "economy" := by
  have h := (flightMatches_iff r c).1 hm
  simp only [mockFlightData, List.mem_cons, List.mem_singleton, List.not_mem_nil, or_false] at hc
  rcases hc with rfl | rfl | rfl <;> exact ⟨h.1.symm, h.2.1.symm, h.2.2.symm⟩

theorem mock_search_nonempty (r : FormData)
    (h : searchFlightsOn mockFlightData r ≠ []) :
    r.fromCity = "NYC" ∧ r.toCity = "LAX" ∧ r.flightClass = "economy" := by
  obtain ⟨p, hp⟩ := List.exists_mem_of_ne_nil _ h
  obtain ⟨c, hc, -⟩ := List.mem_map.1 hp
  exact mock_match_economy r c (List.mem_filter.1 hc).1 (List.mem_filter.1 hc).2

theorem mock_prices (c : Flight) (hc : c ∈ mockFlightData) :
    (c.id = 1 ∧ c.price = ((299 : Int) : ℚ)) ∨ (c.id = 2 ∧ c.price = ((349 : Int) : ℚ)) ∨
      (c.id = 3 ∧ c.price = ((275 : Int) : ℚ)) := by
  simp only [mockFlightData, List.mem_cons, List.mem_singleton, List.not_mem_nil, or_false] at hc
  rcases hc with rfl | rfl | rfl
  · exact Or.inl ⟨rfl, by norm_num⟩
  · exact Or.inr (Or.inl ⟨rfl, by norm_num⟩)
  · exact Or.inr (Or.inr ⟨rfl, by norm_num⟩)

/-- Claim C10: over `mockFlightData`, `searchFlights` returns no flight for a
business or first request and for a request that is not NYC to LAX; every
flight of a result carries its catalog base price, one of 299, 349, 275. -/
theorem mock_search_prices (st : AppState) (r : FormData) :
    ((r.flightClass = "business" ∨ r.flightClass = "first") →
        (searchFlights st r).1.currentFlights = []) ∧
      (¬ (r.fromCity = "NYC" ∧ r.toCity = "LAX") →
        (searchFlights st r).1.currentFlights = []) ∧
      List.Forall₂ (fun p c => p.id = c.id ∧ (p.price : ℚ) = c.price)
        (searchFlights st r).1.currentFlights
        (mockFlightData.filter fun c => decide (specMatch r c)) ∧
      ∀ p ∈ (searchFlights st r).1.currentFlights,
        (p.id = 1 ∧ p.price = 299) ∨ (p.id = 2 ∧ p.price = 349) ∨ (p.id = 3 ∧ p.price = 275) := by
  show (_ → searchFlightsOn mockFlightData r = []) ∧ (_ → searchFlightsOn mockFlightData r = []) ∧
    List.Forall₂ _ (searchFlightsOn mockFlightData r) _ ∧
    ∀ p ∈ searchFlightsOn mockFlightData r, _
  refine ⟨fun h => ?_, fun h => ?_, ?_, fun p hp => ?_⟩
  · by_contra hne
    have he := (mock_search_nonempty r hne).2.2
    rw [he] at h
    revert h
    decide
  · by_contra hne
    exact h ⟨(mock_search_nonempty r hne).1, (mock_search_nonempty r hne).2.1⟩
  · rw [← filter_flightMatches]
    refine forall₂_map_left _ _ _ fun c hc => ⟨rfl, ?_⟩
    have hmem := (List.mem_filter.1 hc).1
    have he := (mock_match_economy r c hmem (List.mem_filter.1 hc).2).2.2
    rw [processFlight_price_economy r c he]
    rcases mock_prices c hmem with ⟨-, h⟩ | ⟨-, h⟩ | ⟨-, h⟩ <;> rw [h, mathRound_intCast]
  · obtain ⟨c, hc, rfl⟩ := List.mem_map.1 hp
    have hmem := (List.mem_filter.1 hc).1
    have he := (mock_match_economy r c hmem (List.mem_filter.1 hc).2).2.2
    rw [processFlight_price_economy r c he]
    have hid : (processFlight r c).id = c.id := rfl
    rw [hid]
    rcases mock_prices c hmem with ⟨h0, h⟩ | ⟨h0, h⟩ | ⟨h0, h⟩
    · exact Or.inl ⟨h0, by rw [h, mathRound_intCast]⟩
    · exact Or.inr (Or.inl ⟨h0, by rw [h, mathRound_intCast]⟩)
    · exact Or.inr (Or.inr ⟨h0, by rw [h, mathRound_intCast]⟩)

/-! ## Validation of the search form -/

theorem validateForm_iff (r : FormData) : (validateForm r).1 = true ↔ formComplete r := by
  unfold validateForm formComplete
  by_cases h1 : r.fromCity = ""
  · simp [h1]
  · by_cases h2 : r.toCity = ""
    · simp [h2]
    · by_cases h3 : r.departureDate = ""
      · simp [h1, h2, h3]
      · by_cases h4 : r.tripType = "round" ∧ r.returnDate = ""
        · simp [h1, h2, h3, h4]
        · rw [if_neg (by simp [h1, h2]), if_neg h3, if_neg h4]
          simp only [true_iff]
          exact ⟨h1, h2, h3, fun ht hr => h4 ⟨ht, hr⟩⟩

theorem handleFlightSearch_rejected (form : SearchForm) (st : AppState)
    (h : (validateForm (getFormData form)).1 = false) :
    handleFlightSearch form st = (st, (validateForm (getFormData form)).2) := by
  unfold handleFlightSearch
  simp only [h, if_true]

theorem handleFlightSearch_accepted (form : SearchForm) (st : AppState)
    (h : (validateForm (getFormData form)).1 = true) :
    handleFlightSearch form st =
      ((searchFlights st (getFormData form)).1,
        UiEffect.showLoadingSpinner :: (searchFlights st (getFormData form)).2) := by
  unfold handleFlightSearch
  simp [h]

theorem validateForm_alerts_not_ran (r : FormData) : searchRan (validateForm r).2 = false := by
  unfold validateForm
  split_ifs <;> decide

theorem searchRan_iff (form : SearchForm) (st : AppState) :
    searchRan (handleFlightSearch form st).2 = true ↔
      (validateForm (getFormData form)).1 = true := by
  cases h : (validateForm (getFormData form)).1
  · rw [handleFlightSearch_rejected form st h]
    simp [validateForm_alerts_not_ran]
  · rw [handleFlightSearch_accepted form st h]
    simp [searchRan, searchFlights]

/-- Claim C3 as stated fails: the one-way request NYC to NYC with a departure
date passes `validateForm`, and `handleFlightSearch` runs `searchFlights`. -/
theorem same_city_not_rejected :
    (getFormData sameCityRequest).fromCity = (getFormData sameCityRequest).toCity ∧
      (validateForm (getFormData sameCityRequest)).1 = true ∧
      searchRan (handleFlightSearch sameCityRequest initialState).2 = true := by
  decide

/-- Claim C3, amended: `validateForm` does not compare the two cities; the
guard is the change handler `validateCitySelection`. Once that handler has run
on a form whose origin equals its destination, the destination (or both) is
empty, `validateForm` returns false, and `handleFlightSearch` shows the alert
and leaves the state as it was: `searchFlights` is not run. -/
theorem same_city_rejected_after_guard (form : SearchForm) (st : AppState)
    (h : form.fromCity = form.toCity) :
    (validateForm (getFormData (validateCitySelection form).1)).1 = false ∧
      handleFlightSearch (validateCitySelection form).1 st =
        (st, [UiEffect.alert "Please select both departure and destination cities." "danger"]) ∧
      searchRan (handleFlightSearch (validateCitySelection form).1 st).2 = false := by
  have key : (getFormData (validateCitySelection form).1).fromCity = "" ∨
      (getFormData (validateCitySelection form).1).toCity = "" := by
    unfold validateCitySelection
    by_cases hf : form.fromCity = ""
    · left
      split_ifs <;> exact hf
    · right
      have ht : form.toCity ≠ "" := h ▸ hf
      rw [if_pos ⟨hf, ht, h⟩]
      rfl
  have hv : validateForm (getFormData (validateCitySelection form).1) =
      (false, [UiEffect.alert "Please select both departure and destination cities." "danger"]) := by
    unfold validateForm
    rw [if_pos key]
  have h1 : (validateForm (getFormData (validateCitySelection form).1)).1 = false := by rw [hv]
  refine ⟨h1, ?_, ?_⟩
  · rw [handleFlightSearch_rejected _ st h1, hv]
  · rw [handleFlightSearch_rejected _ st h1, hv]
    rfl

/-- The guard on the NYC to NYC form: after `validateCitySelection` the form is rejected. -/
theorem same_city_rejected_after_guard_witness :
    sameCityRequest.fromCity = sameCityRequest.toCity ∧
      (validateForm (getFormData (validateCitySelection sameCityRequest).1)).1 = false :=
  ⟨by decide, (same_city_rejected_after_guard sameCityRequest initialState (by decide)).1⟩

/-- Claim C4 as stated fails: a round trip returning on 2025-02-01 after
leaving on 2025-02-10 is accepted by `validateForm`, although its return date
is earlier than its departure date. -/
theorem backwards_dates_accepted :
    ¬ ((validateForm (getFormData backwardsRequest)).1 = true ↔
        specValid (getFormData backwardsRequest)) := by
  intro h
  have hv : specValid (getFormData backwardsRequest) := h.1 (by decide)
  have := (hv.2.2.2 (by decide)).2
  revert this
  decide

/-- Claim C4, amended: `validateForm` accepts a request iff origin and
destination are non-empty, the departure date is present and, for a round trip,
the return date is present; it does not compare the two dates. A rejected
request yields no search (state unchanged, only the alert shown). The order of
the dates is the business of the change handler `validateDates`, which empties
a return date earlier than the departure date, after which `validateForm`
rejects the round trip. -/
theorem validateForm_accepts_iff (form : SearchForm) (st : AppState) :
    ((validateForm (getFormData form)).1 = true ↔ formComplete (getFormData form)) ∧
      ((validateForm (getFormData form)).1 = false →
        (handleFlightSearch form st).1 = st ∧
          searchRan (handleFlightSearch form st).2 = false ∧
          ∃ message, (handleFlightSearch form st).2 = [UiEffect.alert message "danger"]) ∧
      (form.tripType = "round" → form.departureDate ≠ "" → form.returnDate ≠ "" →
        dateLt form.returnDate form.departureDate = true →
        (validateDates form).1.returnDate = "" ∧
          (validateForm (getFormData (validateDates form).1)).1 = false) := by
  refine ⟨validateForm_iff _, fun h => ?_, fun ht hd hr hlt => ?_⟩
  · rw [handleFlightSearch_rejected form st h]
    refine ⟨rfl, validateForm_alerts_not_ran _, ?_⟩
    revert h
    unfold validateForm
    split_ifs
    · exact fun _ => ⟨_, rfl⟩
    · exact fun _ => ⟨_, rfl⟩
    · exact fun _ => ⟨_, rfl⟩
    · intro h; cases h
  · have hvd : (validateDates form).1 =
        { form with returnDateMin := form.departureDate, returnDate := "" } := by
      unfold validateDates
      simp only [ne_eq, hd, not_false_eq_true, if_true, ht, hr, and_self, hlt]
    have hret : (validateDates form).1.returnDate = "" := by rw [hvd]
    have htrip : (validateDates form).1.tripType = "round" := by rw [hvd]; exact ht
    refine ⟨hret, ?_⟩
    cases hv : (validateForm (getFormData (validateDates form).1)).1
    · rfl
    · exact absurd hret (((validateForm_iff _).1 hv).2.2.2 htrip)

/-- The change handler on the backwards round trip: the return date is emptied and the form is then rejected. -/
theorem validateForm_accepts_iff_witness :
    (validateDates backwardsRequest).1.returnDate = "" ∧
      (validateForm (getFormData (validateDates backwardsRequest).1)).1 = false :=
  (validateForm_accepts_iff backwardsRequest initialState).2.2
    (by decide) (by decide) (by decide) (by decide)

/-! ## Flight selection -/

/-- Claim C9 as stated fails: after a search NYC to LAX, the selection of
flight 2 and a second search CHI to MIA, `selectedFlight` still holds flight 2
while the most recent result set is empty. -/
theorem stale_selection :
    staleState.currentFlights = [] ∧
      ∃ flight, staleState.selectedFlight = some flight ∧ flight.id = 2 ∧
        flight ∉ staleState.currentFlights :=
  ⟨rfl, _, rfl, rfl, fun h => by cases h⟩

/-- Claim C9, amended: `openBookingModal(id)` takes the not-found branch (danger
alert, no booking summary, no modal) iff no flight of `currentFlights` has that
id; otherwise `selectedFlight` becomes the first flight of `currentFlights` with
that id, which at the moment of selection is a member of `currentFlights`, the
summary is filled from it and the modal shown. `currentFlights` is left as it
was; a later `searchFlights` replaces `currentFlights` and keeps
`selectedFlight`. -/
theorem openBookingModal_selects (st : AppState) (flightId : Int) :
    ((openBookingModal st flightId).2 =
          [UiEffect.alert "Flight not found. Please try again." "danger"] ↔
        ∀ flight ∈ st.currentFlights, flight.id ≠ flightId) ∧
      ((∀ flight ∈ st.currentFlights, flight.id ≠ flightId) →
        (openBookingModal st flightId).1.selectedFlight = none) ∧
      ((∃ flight ∈ st.currentFlights, flight.id = flightId) →
        ∃ before flight after,
          st.currentFlights = before ++ flight :: after ∧
          (∀ earlier ∈ before, earlier.id ≠ flightId) ∧
          flight.id = flightId ∧
          flight ∈ (openBookingModal st flightId).1.currentFlights ∧
          (openBookingModal st flightId).1.selectedFlight = some flight ∧
          (openBookingModal st flightId).2 =
            [UiEffect.updateBookingSummary flight, UiEffect.showModal "bookingModal"]) ∧
      (openBookingModal st flightId).1.currentFlights = st.currentFlights ∧
      ∀ r, (searchFlights (openBookingModal st flightId).1 r).1.selectedFlight =
        (openBookingModal st flightId).1.selectedFlight := by
  unfold openBookingModal
  cases hfind : st.currentFlights.find? (fun flight => flight.id == flightId) with
  | none =>
    have hnone : ∀ flight ∈ st.currentFlights, flight.id ≠ flightId := by
      intro flight hmem heq
      have := List.find?_eq_none.1 hfind flight hmem
      simp [heq] at this
    refine ⟨⟨fun _ => hnone, fun _ => rfl⟩, fun _ => rfl, ?_, rfl, fun _ => rfl⟩
    rintro ⟨flight, hmem, heq⟩
    exact absurd heq (hnone flight hmem)
  | some found =>
    obtain ⟨hid, before, after, hsplit, hbefore⟩ := List.find?_eq_some.1 hfind
    have hid' : found.id = flightId := by simpa using hid
    have hmem : found ∈ st.currentFlights := by rw [hsplit]; simp
    refine ⟨⟨fun h => ?_, fun h => absurd hid' (h found hmem)⟩,
      fun h => absurd hid' (h found hmem), fun _ => ?_, rfl, fun _ => rfl⟩
    · simp at h
    · refine ⟨before, found, after, hsplit, ?_, hid', hmem, rfl, rfl⟩
      intro earlier he heq
      have := hbefore earlier he
      simp [heq] at this

/-! ## Regular expressions: the matcher decides the language -/

namespace Regex

theorem not_matches_fail (w : List Char) : ¬ Matches fail w := by
  intro h; cases h

theorem matches_eps_iff (w : List Char) : Matches eps w ↔ w = [] := by
  constructor
  · intro h; cases h; rfl
  · rintro rfl; exact Matches.eps

theorem matches_cls_iff (p : Char → Bool) (w : List Char) :
    Matches (cls p) w ↔ ∃ c, w = [c] ∧ p c = true := by
  constructor
  · intro h; cases h with
    | cls _ c hc => exact ⟨c, rfl, hc⟩
  · rintro ⟨c, rfl, hc⟩; exact Matches.cls p c hc

theorem matches_alt_iff (r s : Regex) (w : List Char) :
    Matches (alt r s) w ↔ Matches r w ∨ Matches s w := by
  constructor
  · intro h; cases h with
    | altLeft _ _ _ h => exact Or.inl h
    | altRight _ _ _ h => exact Or.inr h
  · rintro (h | h)
    · exact Matches.altLeft r s w h
    · exact Matches.altRight r s w h

theorem matches_seq_iff (r s : Regex) (w : List Char) :
    Matches (seq r s) w ↔ ∃ u v, w = u ++ v ∧ Matches r u ∧ Matches s v := by
  constructor
  · intro h; cases h with
    | seq _ _ u v hu hv => exact ⟨u, v, rfl, hu, hv⟩
  · rintro ⟨u, v, rfl, hu, hv⟩; exact Matches.seq r s u v hu hv

theorem nullable_iff (r : Regex) : r.nullable = true ↔ Matches r [] := by
  induction r with
  | fail => simp [nullable, not_matches_fail]
  | eps => simp [nullable, matches_eps_iff]
  | cls p => simp [nullable, matches_cls_iff]
  | alt r s ihr ihs => simp [nullable, matches_alt_iff, ihr, ihs]
  | seq r s ihr ihs =>
    rw [matches_seq_iff]
    simp only [nullable, Bool.and_eq_true, ihr, ihs]
    constructor
    · rintro ⟨hr, hs⟩; exact ⟨[], [], rfl, hr, hs⟩
    · rintro ⟨u, v, huv, hu, hv⟩
      have h1 : u = [] := (List.append_eq_nil.1 huv.symm).1
      have h2 : v = [] := (List.append_eq_nil.1 huv.symm).2
      subst h1; subst h2
      exact ⟨hu, hv⟩
  | star r _ => simp only [nullable, true_iff]; exact Matches.starNil r

theorem star_cons_inv {r : Regex} {c : Char} {w : List Char} (h : Matches (star r) (c :: w)) :
    ∃ u v, w = u ++ v ∧ Matches r (c :: u) ∧ Matches (star r) v := by
  generalize hx : c :: w = x at h
  generalize hq : star r = q at h
  induction h with
  | eps => cases hq
  | cls _ _ _ => cases hq
  | altLeft _ _ _ _ _ => cases hq
  | altRight _ _ _ _ _ => cases hq
  | seq _ _ _ _ _ _ _ _ => cases hq
  | starNil _ => cases hx
  | starCons r' u v hu hv _ ihv =>
    cases hq
    cases u with
    | nil => exact ihv hx rfl
    | cons a u' =>
      rw [List.cons_append] at hx
      cases hx
      exact ⟨u', v, rfl, hu, hv⟩

theorem deriv_iff (r : Regex) (c : Char) (w : List Char) :
    Matches (r.deriv c) w ↔ Matches r (c :: w) := by
  induction r generalizing w with
  | fail => simp [deriv, not_matches_fail]
  | eps => simp [deriv, not_matches_fail, matches_eps_iff]
  | cls p =>
    rw [matches_cls_iff]
    cases hp : p c with
    | true =>
      simp only [deriv, hp, if_true, matches_eps_iff]
      constructor
      · rintro rfl; exact ⟨c, rfl, hp⟩
      · rintro ⟨c', h, -⟩
        exact (List.cons.inj h).2
    | false =>
      simp only [deriv, hp, Bool.false_eq_true, if_false, not_matches_fail, false_iff]
      rintro ⟨c', h, hc'⟩
      rw [← (List.cons.inj h).1, hp] at hc'
      cases hc'
  | alt r s ihr ihs => simp only [deriv, matches_alt_iff, ihr, ihs]
  | seq r s ihr ihs =>
    have key : (Matches (seq (r.deriv c) s) w ∨ (Matches r [] ∧ Matches s (c :: w))) ↔
        Matches (seq r s) (c :: w) := by
      rw [matches_seq_iff, matches_seq_iff]
      constructor
      · rintro (⟨u, v, rfl, hu, hv⟩ | ⟨hr, hs⟩)
        · exact ⟨c :: u, v, rfl, (ihr u).1 hu, hv⟩
        · exact ⟨[], c :: w, rfl, hr, hs⟩
      · rintro ⟨u, v, huv, hu, hv⟩
        cases u with
        | nil =>
          rw [List.nil_append] at huv
          subst huv
          exact Or.inr ⟨hu, hv⟩
        | cons a u' =>
          rw [List.cons_append] at huv
          cases huv
          exact Or.inl ⟨u', v, rfl, (ihr u').2 hu, hv⟩
    rw [← key]
    by_cases hn : r.nullable = true
    · simp only [deriv, hn, if_true, matches_alt_iff, ihs, ← nullable_iff, true_and]
    · simp only [deriv, hn, if_false, ← nullable_iff, false_and, or_false]
      simp
  | star r ih =>
    simp only [deriv]
    rw [matches_seq_iff]
    constructor
    · rintro ⟨u, v, rfl, hu, hv⟩
      exact Matches.starCons r (c :: u) v ((ih u).1 hu) hv
    · intro h
      obtain ⟨u, v, rfl, hu, hv⟩ := star_cons_inv h
      exact ⟨u, v, rfl, (ih u).2 hu, hv⟩

theorem foldl_deriv_iff (w : List Char) (r : Regex) :
    (w.foldl deriv r).nullable = true ↔ Matches r w := by
  induction w generalizing r with
  | nil => exact nullable_iff r
  | cons c w ih => rw [List.foldl_cons, ih, deriv_iff]

theorem test_iff (r : Regex) (s : String) : r.test s = true ↔ Matches r s.data :=
  foldl_deriv_iff s.data r

end Regex

namespace Regex

theorem star_cls_forall {q : Regex} {w : List Char} (h : Matches q w) (p : Char → Bool)
    (hq : q = star (cls p)) : ∀ c ∈ w, p c = true := by
  induction h with
  | eps => cases hq
  | cls _ _ _ => cases hq
  | altLeft _ _ _ _ _ => cases hq
  | altRight _ _ _ _ _ => cases hq
  | seq _ _ _ _ _ _ _ _ => cases hq
  | starNil _ => intro c hc; cases hc
  | starCons r u v hu _ _ ihv =>
    cases hq
    obtain ⟨a, rfl, ha⟩ := (matches_cls_iff p u).1 hu
    intro c hc
    rcases List.mem_append.1 hc with h1 | h2
    · rw [List.mem_singleton.1 h1]; exact ha
    · exact ihv rfl c h2

theorem matches_star_cls_iff (p : Char → Bool) (w : List Char) :
    Matches (star (cls p)) w ↔ ∀ c ∈ w, p c = true := by
  constructor
  · exact fun h => star_cls_forall h p rfl
  · intro h
    induction w with
    | nil => exact Matches.starNil _
    | cons a w ih =>
      exact Matches.starCons (cls p) [a] w (Matches.cls p a (h a (List.mem_cons_self a w)))
        (ih fun c hc => h c (List.mem_cons_of_mem a hc))

theorem matches_plus_cls_iff (p : Char → Bool) (w : List Char) :
    Matches (plus (cls p)) w ↔ w ≠ [] ∧ ∀ c ∈ w, p c = true := by
  unfold plus
  rw [matches_seq_iff]
  constructor
  · rintro ⟨u, v, rfl, hu, hv⟩
    obtain ⟨a, rfl, ha⟩ := (matches_cls_iff p u).1 hu
    refine ⟨by simp, fun c hc => ?_⟩
    rcases List.mem_append.1 hc with h1 | h2
    · rw [List.mem_singleton.1 h1]; exact ha
    · exact (matches_star_cls_iff p v).1 hv c h2
  · rintro ⟨hne, h⟩
    cases w with
    | nil => exact absurd rfl hne
    | cons a w =>
      exact ⟨[a], w, rfl, Matches.cls p a (h a (List.mem_cons_self a w)),
        (matches_star_cls_iff p w).2 fun c hc => h c (List.mem_cons_of_mem a hc)⟩

end Regex

theorem matches_emailRegex_iff (w : List Char) :
    Regex.Matches emailRegex w ↔
      ∃ l d t, w = l ++ '@' :: (d ++ '.' :: t) ∧ IsWord l ∧ IsWord d ∧ IsWord t := by
  unfold emailRegex IsWord
  simp only [Regex.matches_seq_iff, Regex.matches_plus_cls_iff, Regex.matches_cls_iff]
  constructor
  · rintro ⟨l, _, rfl, hl, _, _, rfl, ⟨a, rfl, ha⟩, d, _, rfl, hd, _, t, rfl, ⟨b, rfl, hb⟩, ht⟩
    have ha' : a = '@' := by simpa using ha
    have hb' : b = '.' := by simpa using hb
    subst ha'; subst hb'
    exact ⟨l, d, t, by simp, hl, hd, ht⟩
  · rintro ⟨l, d, t, rfl, hl, hd, ht⟩
    exact ⟨l, _, rfl, hl, ['@'], _, rfl, ⟨'@', rfl, by simp⟩, d, _, rfl, hd, ['.'], t, rfl,
      ⟨'.', rfl, by simp⟩, ht⟩

theorem notSpaceAt_iff (c : Char) :
    notSpaceAt c = true ↔ isWhiteSpace c = false ∧ c ≠ '@' := by
  unfold notSpaceAt
  cases isWhiteSpace c <;> simp

theorem takeWhile_dropWhile_at (l rest : List Char) (hl : ∀ c ∈ l, c ≠ '@') :
    (l ++ '@' :: rest).takeWhile (· != '@') = l ∧
      (l ++ '@' :: rest).dropWhile (· != '@') = '@' :: rest := by
  induction l with
  | nil => simp [List.takeWhile, List.dropWhile]
  | cons a l ih =>
    have ha : (a != '@') = true := by simpa using hl a (List.mem_cons_self a l)
    have := ih fun c hc => hl c (List.mem_cons_of_mem a hc)
    simp only [List.cons_append, List.takeWhile_cons, List.dropWhile_cons, ha, if_true]
    exact ⟨by rw [this.1], this.2⟩

theorem dropWhile_at_head (w : List Char) (h : '@' ∈ w) :
    ∃ rest, w.dropWhile (· != '@') = '@' :: rest := by
  induction w with
  | nil => cases h
  | cons a w ih =>
    by_cases ha : a = '@'
    · subst ha
      exact ⟨w, by simp [List.dropWhile]⟩
    · have hmem : '@' ∈ w := by
        rcases List.mem_cons.1 h with h1 | h1
        · exact absurd h1.symm ha
        · exact h1
      obtain ⟨rest, hrest⟩ := ih hmem
      refine ⟨rest, ?_⟩
      have ha' : (a != '@') = true := by simpa using ha
      simp only [List.dropWhile_cons, ha', if_true]
      exact hrest

theorem takeWhile_no_at (w : List Char) : ∀ c ∈ w.takeWhile (· != '@'), c ≠ '@' := by
  intro c hc
  have := List.mem_takeWhile_imp hc
  simpa using this

theorem emailShape_iff (w : List Char) :
    ((∀ c ∈ w, isWhiteSpace c = false) ∧ w.count '@' = 1 ∧ localPart w ≠ [] ∧
        ∃ i, 0 < i ∧ i + 1 < (domainPart w).length ∧ (domainPart w)[i]? = some '.') ↔
      ∃ l d t, w = l ++ '@' :: (d ++ '.' :: t) ∧ IsWord l ∧ IsWord d ∧ IsWord t := by
  constructor
  · rintro ⟨hws, hcount, hlocal, i, hi0, hi1, hdot⟩
    have hmem : '@' ∈ w := List.count_pos_iff.1 (by omega)
    obtain ⟨rest, hrest⟩ := dropWhile_at_head w hmem
    have hsplit : w = localPart w ++ '@' :: rest := by
      have := List.takeWhile_append_dropWhile (· != '@') w
      rw [hrest] at this
      exact this.symm
    have hdom : domainPart w = rest := by
      unfold domainPart; rw [hrest]; rfl
    rw [hdom] at hi1 hdot
    have hlno : ∀ c ∈ localPart w, c ≠ '@' := takeWhile_no_at w
    have hrno : ∀ c ∈ rest, c ≠ '@' := by
      have h0 : (localPart w).count '@' = 0 :=
        List.count_eq_zero.2 fun hc => hlno _ hc rfl
      have h1 : (localPart w ++ '@' :: rest).count '@' = 1 := by rw [← hsplit]; exact hcount
      rw [List.count_append, h0, List.count_cons_self] at h1
      have h2 : rest.count '@' = 0 := by omega
      intro c hc heq
      subst heq
      exact List.count_eq_zero.1 h2 hc
    have hilt : i < rest.length := by omega
    have hget : rest[i] = '.' := by
      have := List.getElem?_eq_getElem hilt
      rw [this] at hdot
      exact Option.some.inj hdot
    have hrest_split : rest = rest.take i ++ '.' :: rest.drop (i + 1) := by
      rw [← hget, List.getElem_cons_drop rest i hilt, List.take_append_drop]
    have hwsl : ∀ c ∈ localPart w, isWhiteSpace c = false := fun c hc =>
      hws c (by rw [hsplit]; exact List.mem_append_left _ hc)
    have hwsr : ∀ c ∈ rest, isWhiteSpace c = false := fun c hc =>
      hws c (by rw [hsplit]; exact List.mem_append_right _ (List.mem_cons_of_mem _ hc))
    refine ⟨localPart w, rest.take i, rest.drop (i + 1), ?_, ⟨hlocal, ?_⟩, ⟨?_, ?_⟩, ⟨?_, ?_⟩⟩
    · rw [← hrest_split]; exact hsplit
    · exact fun c hc => (notSpaceAt_iff c).2 ⟨hwsl c hc, hlno c hc⟩
    · intro h
      have hlen : (rest.take i).length = min i rest.length := List.length_take i rest
      rw [h, List.length_nil] at hlen
      omega
    · exact fun c hc => (notSpaceAt_iff c).2
        ⟨hwsr c (List.mem_of_mem_take hc), hrno c (List.mem_of_mem_take hc)⟩
    · intro h
      have hlen : (rest.drop (i + 1)).length = rest.length - (i + 1) := List.length_drop (i + 1) rest
      rw [h, List.length_nil] at hlen
      omega
    · exact fun c hc => (notSpaceAt_iff c).2
        ⟨hwsr c (List.mem_of_mem_drop hc), hrno c (List.mem_of_mem_drop hc)⟩
  · rintro ⟨l, d, t, rfl, ⟨hl0, hl⟩, ⟨hd0, hd⟩, ⟨ht0, ht⟩⟩
    have hlno : ∀ c ∈ l, c ≠ '@' := fun c hc => ((notSpaceAt_iff c).1 (hl c hc)).2
    have htd := takeWhile_dropWhile_at l (d ++ '.' :: t) hlno
    have hdom : domainPart (l ++ '@' :: (d ++ '.' :: t)) = d ++ '.' :: t := by
      unfold domainPart; rw [htd.2]; rfl
    refine ⟨?_, ?_, ?_, d.length, ?_, ?_, ?_⟩
    · intro c hc
      simp only [List.mem_append, List.mem_cons] at hc
      rcases hc with h | h | h | h | h
      · exact ((notSpaceAt_iff c).1 (hl c h)).1
      · rw [h]; decide
      · exact ((notSpaceAt_iff c).1 (hd c h)).1
      · rw [h]; decide
      · exact ((notSpaceAt_iff c).1 (ht c h)).1
    · have h1 : l.count '@' = 0 := List.count_eq_zero.2 fun hc => hlno _ hc rfl
      have h2 : d.count '@' = 0 :=
        List.count_eq_zero.2 fun hc => ((notSpaceAt_iff _).1 (hd _ hc)).2 rfl
      have h3 : t.count '@' = 0 :=
        List.count_eq_zero.2 fun hc => ((notSpaceAt_iff _).1 (ht _ hc)).2 rfl
      have h4 : ('.' :: t).count '@' = 0 := by
        rw [List.count_cons_of_ne (by decide), h3]
      rw [List.count_append, List.count_cons_self, List.count_append, h1, h2, h4]
    · unfold localPart; rw [htd.1]; exact hl0
    · exact List.length_pos.2 hd0
    · rw [hdom, List.length_append, List.length_cons]
      have := List.length_pos.2 ht0
      omega
    · rw [hdom, List.getElem?_append_right (le_refl _)]
      simp

theorem emailRegex_test_iff (email : String) :
    emailRegex.test email = true ↔ EmailShape email := by
  rw [Regex.test_iff, matches_emailRegex_iff, ← emailShape_iff]
  rfl

theorem validatePassengerForm_true_iff (data : PassengerData) :
    (validatePassengerForm data).1 = true ↔
      AllFilled data ∧ emailRegex.test data.email = true := by
  unfold validatePassengerForm AllFilled
  by_cases hany :
      [data.firstName, data.lastName, data.email, data.phone, data.passport].any (· == "") = true
  · rw [if_pos hany]
    simp only [Bool.false_eq_true, false_iff]
    rintro ⟨⟨h1, h2, h3, h4, h5⟩, -⟩
    simp [h1, h2, h3, h4, h5] at hany
  · rw [if_neg hany]
    have hall : data.firstName ≠ "" ∧ data.lastName ≠ "" ∧ data.email ≠ "" ∧
        data.phone ≠ "" ∧ data.passport ≠ "" := by
      simpa [not_or] using hany
    cases ht : emailRegex.test data.email
    · simp
    · simp [hall]

/-- Claim C5: `validatePassengerForm` returns true iff the five fields are
non-empty and the e-mail has the shape `local@domain.tld` (no white space,
exactly one `@`, something before it, and after it a part with a `.` that is
neither its first nor its last character). A record with an empty first name
is rejected, the address `a@b` is rejected, and a fully populated record with
the address `a@b.com` is accepted. -/
theorem validatePassengerForm_iff (data : PassengerData) :
    ((validatePassengerForm data).1 = true ↔ AllFilled data ∧ EmailShape data.email) ∧
      (data.firstName = "" → (validatePassengerForm data).1 = false) ∧
      (data.email = "a@b" → (validatePassengerForm data).1 = false) ∧
      (AllFilled data → data.email = "a@b.com" → (validatePassengerForm data).1 = true) := by
  have hiff : (validatePassengerForm data).1 = true ↔ AllFilled data ∧ EmailShape data.email := by
    rw [validatePassengerForm_true_iff, emailRegex_test_iff]
  refine ⟨hiff, fun h => ?_, fun h => ?_, fun hall h => ?_⟩
  · cases hv : (validatePassengerForm data).1
    · rfl
    · exact absurd h ((validatePassengerForm_true_iff data).1 hv).1.1
  · cases hv : (validatePassengerForm data).1
    · rfl
    · have := ((validatePassengerForm_true_iff data).1 hv).2
      rw [h] at this
      revert this
      decide
  · refine (validatePassengerForm_true_iff data).2 ⟨hall, ?_⟩
    rw [h]
    decide

/-- The three examples of the claim on a populated record. -/
theorem validatePassengerForm_iff_witness :
    (validatePassengerForm (janeDoe "a@b.com")).1 = true ∧
      (validatePassengerForm (janeDoe "a@b")).1 = false ∧
      (validatePassengerForm { janeDoe "a@b.com" with firstName := "" }).1 = false :=
  ⟨(validatePassengerForm_iff (janeDoe "a@b.com")).2.2.2 (by unfold AllFilled; decide) rfl,
    (validatePassengerForm_iff (janeDoe "a@b")).2.2.1 rfl,
    (validatePassengerForm_iff { janeDoe "a@b.com" with firstName := "" }).2.1 rfl⟩

/-! ## Booking reference -/

theorem chars_lookup : ∀ n, n < 36 → ∃ c, chars.data[n]? = some c ∧ isUpperOrDigit c = true := by
  decide

theorem chars_length : (chars.length : ℚ) = 36 := by
  have : chars.length = 36 := by decide
  rw [this]; norm_num

theorem double_lt_one (r : ℚ) (hd : IsDouble r) (h1 : r < 1) : r ≤ 1 - 1 / 2 ^ 53 := by
  obtain ⟨m, p, q, hm, -, -, rfl⟩ := hd
  have hq : (0 : ℚ) < 2 ^ q := by positivity
  have h53 : (0 : ℚ) < 2 ^ 53 := by positivity
  rcases Nat.lt_or_ge (p + 53) q with hlt | hge
  · obtain ⟨k, rfl⟩ : ∃ k, q = p + 53 + 1 + k := ⟨q - (p + 53 + 1), by omega⟩
    have hmq : (m : ℚ) < 2 ^ 53 := by
      have : m < 2 ^ 53 := lt_of_le_of_lt (le_abs_self m) hm
      exact_mod_cast this
    have hk : (1 : ℚ) ≤ 2 ^ k := one_le_pow₀ (by norm_num)
    have hp : (0 : ℚ) < 2 ^ p := by positivity
    rw [div_le_iff₀ hq]
    have e : (2 : ℚ) ^ (p + 53 + 1 + k) = 2 ^ p * 2 ^ 53 * 2 * 2 ^ k := by ring
    rw [e]
    have h2 : (m : ℚ) * 2 ^ p ≤ 2 ^ 53 * 2 ^ p := by
      exact mul_le_mul_of_nonneg_right hmq.le hp.le
    have h3 : (2 : ℚ) ^ 53 * 2 ^ p ≤ 2 ^ 53 * 2 ^ p * 2 ^ k := by
      exact le_mul_of_one_le_right (by positivity) hk
    have h4 : (1 - 1 / 2 ^ 53 : ℚ) * (2 ^ p * 2 ^ 53 * 2 * 2 ^ k) =
        (2 ^ 53 * 2 ^ p * 2 ^ k) * (2 - 2 / 2 ^ 53) := by ring
    rw [h4]
    have h5 : (1 : ℚ) ≤ 2 - 2 / 2 ^ 53 := by norm_num
    calc (m : ℚ) * 2 ^ p ≤ 2 ^ 53 * 2 ^ p * 2 ^ k := h2.trans h3
      _ ≤ (2 ^ 53 * 2 ^ p * 2 ^ k) * (2 - 2 / 2 ^ 53) :=
        le_mul_of_one_le_right (by positivity) h5
  · obtain ⟨k, hk⟩ : ∃ k, p + 53 = q + k := ⟨p + 53 - q, by omega⟩
    have e : (m : ℚ) * 2 ^ p / 2 ^ q = ((m * 2 ^ k : Int) : ℚ) / 2 ^ 53 := by
      rw [div_eq_div_iff hq.ne' h53.ne']
      push_cast
      have : (2 : ℚ) ^ p * 2 ^ 53 = 2 ^ q * 2 ^ k := by rw [← pow_add, ← pow_add, hk]
      calc (m : ℚ) * 2 ^ p * 2 ^ 53 = (m : ℚ) * (2 ^ p * 2 ^ 53) := by ring
        _ = (m : ℚ) * (2 ^ q * 2 ^ k) := by rw [this]
        _ = (m : ℚ) * 2 ^ k * 2 ^ q := by ring
    rw [e] at h1 ⊢
    rw [div_lt_one h53] at h1
    have h1' : m * 2 ^ k < 2 ^ 53 := by exact_mod_cast h1
    have h2 : m * 2 ^ k ≤ 2 ^ 53 - 1 := by omega
    have h2' : ((m * 2 ^ k : Int) : ℚ) ≤ 2 ^ 53 - 1 := by exact_mod_cast h2
    rw [div_le_iff₀ h53]
    have : (1 - 1 / 2 ^ 53 : ℚ) * 2 ^ 53 = 2 ^ 53 - 1 := by norm_num
    rw [this]
    exact h2'

theorem isDouble_zero : IsDouble 0 := ⟨0, 0, 0, by norm_num, by omega, by omega, by norm_num⟩

theorem isDouble_below_36 : IsDouble (36 - 1 / 2 ^ 47) :=
  ⟨36 * 2 ^ 47 - 1, 0, 47, by norm_num, by omega, by omega, by norm_num⟩

theorem rounded_draw_range (fl : ℚ → ℚ) (hfl : IsNearestRounding fl) (r : ℚ)
    (hd : IsDouble r) (h0 : 0 ≤ r) (h1 : r < 1) : 0 ≤ fl (r * 36) ∧ fl (r * 36) < 36 := by
  have hmax := double_lt_one r hd h1
  have hfl0 : fl 0 = 0 := by
    have := hfl.2 0 (by norm_num) 0 isDouble_zero
    simpa using this
  constructor
  · have := hfl.1 0 (r * 36) (by positivity)
    rwa [hfl0] at this
  · have hle : fl (r * 36) ≤ fl ((1 - 1 / 2 ^ 53) * 36) := hfl.1 _ _ (by linarith)
    have hnear := hfl.2 ((1 - 1 / 2 ^ 53) * 36) (by rw [abs_of_nonneg (by norm_num)]; norm_num)
      (36 - 1 / 2 ^ 47) isDouble_below_36
    have hd' : |(36 - 1 / 2 ^ 47 : ℚ) - (1 - 1 / 2 ^ 53) * 36| = 28 / 2 ^ 53 := by
      rw [abs_of_nonpos (by norm_num)]
      norm_num
    rw [hd'] at hnear
    have := (abs_le.1 hnear).2
    have hx : ((1 - 1 / 2 ^ 53) * 36 : ℚ) + 28 / 2 ^ 53 < 36 := by norm_num
    linarith

theorem floor_draw_range (fl : ℚ → ℚ) (random : Nat → ℚ) (ha : DrawArithmetic fl random)
    (i : Nat) (hi : i < 6) (h0 : 0 ≤ random i) (h1 : random i < 1) :
    0 ≤ ⌊fl (random i * (chars.length : ℚ))⌋ ∧ ⌊fl (random i * (chars.length : ℚ))⌋ < 36 := by
  rw [chars_length]
  have hr : 0 ≤ fl (random i * 36) ∧ fl (random i * 36) < 36 := by
    rcases ha with hexact | ⟨hfl, hd⟩
    · rw [hexact]
      exact ⟨by positivity, by linarith⟩
    · exact rounded_draw_range fl hfl (random i) (hd i hi) h0 h1
  constructor
  · exact Int.floor_nonneg.2 hr.1
  · rw [Int.floor_lt]
    push_cast
    exact hr.2

theorem charAt_draw (fl : ℚ → ℚ) (random : Nat → ℚ) (ha : DrawArithmetic fl random)
    (i : Nat) (hi : i < 6) (h0 : 0 ≤ random i) (h1 : random i < 1) :
    ∃ c, charAt chars ⌊fl (random i * (chars.length : ℚ))⌋ = String.singleton c ∧
      chars.data[⌊fl (random i * (chars.length : ℚ))⌋.toNat]? = some c ∧
      isUpperOrDigit c = true := by
  obtain ⟨hlo, hhi⟩ := floor_draw_range fl random ha i hi h0 h1
  have hn : ⌊fl (random i * (chars.length : ℚ))⌋.toNat < 36 := by omega
  obtain ⟨c, hc, hcls⟩ := chars_lookup _ hn
  refine ⟨c, ?_, hc, hcls⟩
  unfold charAt
  rw [if_neg (by omega), hc]

theorem generateBookingReference_unfold (fl : ℚ → ℚ) (random : Nat → ℚ) :
    generateBookingReference fl random =
      "SB" ++ (((((("" ++ charAt chars ⌊fl (random 0 * (chars.length : ℚ))⌋) ++
        charAt chars ⌊fl (random 1 * (chars.length : ℚ))⌋) ++
        charAt chars ⌊fl (random 2 * (chars.length : ℚ))⌋) ++
        charAt chars ⌊fl (random 3 * (chars.length : ℚ))⌋) ++
        charAt chars ⌊fl (random 4 * (chars.length : ℚ))⌋) ++
        charAt chars ⌊fl (random 5 * (chars.length : ℚ))⌋) := by
  unfold generateBookingReference
  simp [List.range_succ]

/-- Claim C6: for six draws in `[0, 1)`, every index `floor(r * 36)` lies in
0..35 and selects a character of `chars`, so the reference is the two
characters `SB` followed by six characters of `A-Z0-9`: it has length 8 and
matches `SB[A-Z0-9]{6}`. This holds with the product taken exactly and with
the product of doubles rounded to a nearest double. -/
theorem generateBookingReference_format (fl : ℚ → ℚ) (random : Nat → ℚ)
    (ha : DrawArithmetic fl random)
    (h : ∀ i, i < 6 → 0 ≤ random i ∧ random i < 1) :
    (generateBookingReference fl random).length = 8 ∧
      (generateBookingReference fl random).data.take 2 = ['S', 'B'] ∧
      (∀ c ∈ (generateBookingReference fl random).data.drop 2, c ∈ chars.data) ∧
      (∀ i, i < 6 →
        0 ≤ ⌊fl (random i * (chars.length : ℚ))⌋ ∧
        ⌊fl (random i * (chars.length : ℚ))⌋ < 36 ∧
        (generateBookingReference fl random).data[i + 2]? =
          chars.data[⌊fl (random i * (chars.length : ℚ))⌋.toNat]?) ∧
      referenceRegex.test (generateBookingReference fl random) = true := by
  obtain ⟨c0, e0, g0, u0⟩ := charAt_draw fl random ha 0 (by omega) (h 0 (by omega)).1 (h 0 (by omega)).2
  obtain ⟨c1, e1, g1, u1⟩ := charAt_draw fl random ha 1 (by omega) (h 1 (by omega)).1 (h 1 (by omega)).2
  obtain ⟨c2, e2, g2, u2⟩ := charAt_draw fl random ha 2 (by omega) (h 2 (by omega)).1 (h 2 (by omega)).2
  obtain ⟨c3, e3, g3, u3⟩ := charAt_draw fl random ha 3 (by omega) (h 3 (by omega)).1 (h 3 (by omega)).2
  obtain ⟨c4, e4, g4, u4⟩ := charAt_draw fl random ha 4 (by omega) (h 4 (by omega)).1 (h 4 (by omega)).2
  obtain ⟨c5, e5, g5, u5⟩ := charAt_draw fl random ha 5 (by omega) (h 5 (by omega)).1 (h 5 (by omega)).2
  have hdata : (generateBookingReference fl random).data = ['S', 'B', c0, c1, c2, c3, c4, c5] := by
    rw [generateBookingReference_unfold, e0, e1, e2, e3, e4, e5]
    simp [String.data_append, String.singleton]
  refine ⟨?_, ?_, ?_, ?_, ?_⟩
  · show (generateBookingReference fl random).data.length = 8
    rw [hdata]; rfl
  · rw [hdata]; rfl
  · rw [hdata]
    intro c hc
    simp only [List.drop_succ_cons, List.drop_zero, List.mem_cons, List.mem_singleton,
      List.not_mem_nil, or_false] at hc
    rcases hc with rfl | rfl | rfl | rfl | rfl | rfl
    · exact List.getElem?_mem g0
    · exact List.getElem?_mem g1
    · exact List.getElem?_mem g2
    · exact List.getElem?_mem g3
    · exact List.getElem?_mem g4
    · exact List.getElem?_mem g5
  · intro i hi
    refine ⟨(floor_draw_range fl random ha i hi (h i hi).1 (h i hi).2).1,
      (floor_draw_range fl random ha i hi (h i hi).1 (h i hi).2).2, ?_⟩
    rw [hdata]
    have : i = 0 ∨ i = 1 ∨ i = 2 ∨ i = 3 ∨ i = 4 ∨ i = 5 := by omega
    rcases this with rfl | rfl | rfl | rfl | rfl | rfl
    · rw [g0]; rfl
    · rw [g1]; rfl
    · rw [g2]; rfl
    · rw [g3]; rfl
    · rw [g4]; rfl
    · rw [g5]; rfl
  · rw [Regex.test_iff, hdata]
    unfold referenceRegex
    exact Regex.Matches.seq _ _ ['S'] _ (Regex.Matches.cls _ 'S' rfl)
      (Regex.Matches.seq _ _ ['B'] _ (Regex.Matches.cls _ 'B' rfl)
      (Regex.Matches.seq _ _ [c0] _ (Regex.Matches.cls _ c0 u0)
      (Regex.Matches.seq _ _ [c1] _ (Regex.Matches.cls _ c1 u1)
      (Regex.Matches.seq _ _ [c2] _ (Regex.Matches.cls _ c2 u2)
      (Regex.Matches.seq _ _ [c3] _ (Regex.Matches.cls _ c3 u3)
      (Regex.Matches.seq _ _ [c4] [c5] (Regex.Matches.cls _ c4 u4)
        (Regex.Matches.cls _ c5 u5)))))))

theorem sampleDraws_range : ∀ i, i < 6 → 0 ≤ sampleDraws i ∧ sampleDraws i < 1 := by
  intro i hi
  have : i = 0 ∨ i = 1 ∨ i = 2 ∨ i = 3 ∨ i = 4 ∨ i = 5 := by omega
  rcases this with rfl | rfl | rfl | rfl | rfl | rfl <;> norm_num [sampleDraws]

theorem sampleDraws_isDouble : ∀ i, i < 6 → IsDouble (sampleDraws i) := by
  intro i hi
  have : i = 0 ∨ i = 1 ∨ i = 2 ∨ i = 3 ∨ i = 4 ∨ i = 5 := by omega
  rcases this with rfl | rfl | rfl | rfl | rfl | rfl
  · exact ⟨0, 0, 0, by norm_num, by omega, by omega, by norm_num [sampleDraws]⟩
  · exact ⟨1, 0, 3, by norm_num, by omega, by omega, by norm_num [sampleDraws]⟩
  · exact ⟨1, 0, 1, by norm_num, by omega, by omega, by norm_num [sampleDraws]⟩
  · exact ⟨3, 0, 2, by norm_num, by omega, by omega, by norm_num [sampleDraws]⟩
  · exact ⟨31, 0, 5, by norm_num, by omega, by omega, by norm_num [sampleDraws]⟩
  · exact ⟨2 ^ 53 - 1, 0, 53, by norm_num, by omega, by omega, by norm_num [sampleDraws]⟩

theorem exact_isNearestRounding : IsNearestRounding fun x => x :=
  ⟨fun _ _ h => h, fun x _ d _ => by simp⟩

/-- Six double draws, one of them the largest double below 1, with the products
rounded to the nearest double. -/
theorem generateBookingReference_format_witness :
    DrawArithmetic roundToDouble sampleDraws ∧
      (∀ i, i < 6 → 0 ≤ sampleDraws i ∧ sampleDraws i < 1) ∧
      (generateBookingReference roundToDouble sampleDraws).length = 8 ∧
      referenceRegex.test (generateBookingReference roundToDouble sampleDraws) = true :=
  ⟨Or.inr ⟨roundToDouble_isNearestRounding, sampleDraws_isDouble⟩, sampleDraws_range,
    (generateBookingReference_format roundToDouble sampleDraws
      (Or.inr ⟨roundToDouble_isNearestRounding, sampleDraws_isDouble⟩) sampleDraws_range).1,
    (generateBookingReference_format roundToDouble sampleDraws
      (Or.inr ⟨roundToDouble_isNearestRounding, sampleDraws_isDouble⟩) sampleDraws_range).2.2.2.2⟩

/-! ## Booking store -/

theorem storeBooking_of_parse_arr (host : JsonHost) (now : String) (ls : LocalStorage)
    (bookingRef : String) (passengerData flightData : Json) (text : String) (L : List Json)
    (htext : (match ls.getItem "flightBookings" with
      | some s => if s = "" then "[]" else s
      | none => "[]") = text)
    (hparse : host.parse text = some (Json.arr L)) :
    storeBooking host now ls bookingRef passengerData flightData =
      Except.ok (ls.setItem "flightBookings"
        (host.stringify (Json.arr (L ++ [bookingRecord bookingRef passengerData flightData now])))) := by
  unfold storeBooking
  simp only [htext, hparse]

theorem storeBooking_of_parse_none (host : JsonHost) (now : String) (ls : LocalStorage)
    (bookingRef : String) (passengerData flightData : Json) (text : String)
    (htext : (match ls.getItem "flightBookings" with
      | some s => if s = "" then "[]" else s
      | none => "[]") = text)
    (hparse : host.parse text = none) :
    storeBooking host now ls bookingRef passengerData flightData =
      Except.error JsError.syntaxError := by
  unfold storeBooking
  simp only [htext, hparse]

theorem storeBooking_of_parse_other (host : JsonHost) (now : String) (ls : LocalStorage)
    (bookingRef : String) (passengerData flightData : Json) (text : String) (v : Json)
    (htext : (match ls.getItem "flightBookings" with
      | some s => if s = "" then "[]" else s
      | none => "[]") = text)
    (hparse : host.parse text = some v) (hv : ∀ L, v ≠ Json.arr L) :
    storeBooking host now ls bookingRef passengerData flightData =
      Except.error JsError.typeError := by
  unfold storeBooking
  cases v with
  | arr items => exact absurd rfl (hv items)
  | _ => simp only [htext, hparse]

theorem setItem_getItem_self (ls : LocalStorage) (key value : String) :
    (ls.setItem key value).getItem key = some value := by
  simp [LocalStorage.setItem]

theorem setItem_getItem_other (ls : LocalStorage) (key value k : String) (h : k ≠ key) :
    (ls.setItem key value).getItem k = ls.getItem k := by
  simp [LocalStorage.setItem, h]

/-- Claim C7: when the key `flightBookings` is absent (read as the empty list)
or holds text that parses to a list `L`, `storeBooking` succeeds and leaves the
key holding the serialization of `L` followed by one new record whose
`reference`, `passenger` and `flight` are the three arguments; the list has one
more record, the earlier records keep their positions, and no other key is
touched. -/
theorem storeBooking_appends (host : JsonHost) (now : String) (ls : LocalStorage)
    (bookingRef : String) (passengerData flightData : Json) (L : List Json)
    (hempty : host.parse "[]" = some (Json.arr []))
    (hstore : (ls.getItem "flightBookings" = none ∧ L = []) ∨
      ∃ s, ls.getItem "flightBookings" = some s ∧ s ≠ "" ∧ host.parse s = some (Json.arr L)) :
    (∃ ls1,
      storeBooking host now ls bookingRef passengerData flightData = Except.ok ls1 ∧
      ls1.getItem "flightBookings" = some (host.stringify
        (Json.arr (L ++ [bookingRecord bookingRef passengerData flightData now]))) ∧
      ∀ k, k ≠ "flightBookings" → ls1.getItem k = ls.getItem k) ∧
      (bookingRecord bookingRef passengerData flightData now).getField "reference" =
        some (Json.str bookingRef) ∧
      (bookingRecord bookingRef passengerData flightData now).getField "passenger" =
        some passengerData ∧
      (bookingRecord bookingRef passengerData flightData now).getField "flight" =
        some flightData ∧
      (L ++ [bookingRecord bookingRef passengerData flightData now]).length = L.length + 1 ∧
      (∀ i, i < L.length →
        (L ++ [bookingRecord bookingRef passengerData flightData now])[i]? = L[i]?) ∧
      (L ++ [bookingRecord bookingRef passengerData flightData now])[L.length]? =
        some (bookingRecord bookingRef passengerData flightData now) := by
  have hok : storeBooking host now ls bookingRef passengerData flightData =
      Except.ok (ls.setItem "flightBookings"
        (host.stringify (Json.arr (L ++ [bookingRecord bookingRef passengerData flightData now])))) := by
    rcases hstore with ⟨hnone, rfl⟩ | ⟨s, hs, hne, hparse⟩
    · exact storeBooking_of_parse_arr host now ls _ _ _ "[]" [] (by rw [hnone]) hempty
    · exact storeBooking_of_parse_arr host now ls _ _ _ s L (by rw [hs]; simp only [hne, if_false])
        hparse
  refine ⟨⟨_, hok, setItem_getItem_self _ _ _, fun k hk => setItem_getItem_other _ _ _ _ hk⟩,
    rfl, rfl, rfl, by simp, fun i hi => ?_, by simp⟩
  exact List.getElem?_append_left hi

set_option maxRecDepth 100000 in
theorem oneBookingStorage_holds :
    ∃ s, oneBookingStorage.getItem "flightBookings" = some s ∧ s ≠ "" ∧
      refHost.parse s =
        some (Json.arr [bookingRecord "SBABC123" samplePassenger sampleFlight sampleNow]) :=
  ⟨_, rfl, by decide, rfl⟩

set_option maxRecDepth 100000 in
/-- The two cases of `storeBooking_appends` on the reference host: the first
booking goes into an empty store, and a second booking into the store the first
one left, which then holds both in order. -/
theorem storeBooking_appends_witness :
    (refHost.parse "[]" = some (Json.arr []) ∧
      emptyStorage.getItem "flightBookings" = none ∧
      ∃ ls1,
        storeBooking refHost sampleNow emptyStorage "SBABC123" samplePassenger sampleFlight =
          Except.ok ls1 ∧
        ls1.getItem "flightBookings" = some (refHost.stringify
          (Json.arr ([] ++ [bookingRecord "SBABC123" samplePassenger sampleFlight sampleNow]))) ∧
        ∀ k, k ≠ "flightBookings" → ls1.getItem k = emptyStorage.getItem k) ∧
      (∃ s, oneBookingStorage.getItem "flightBookings" = some s ∧ s ≠ "" ∧
        refHost.parse s =
          some (Json.arr [bookingRecord "SBABC123" samplePassenger sampleFlight sampleNow])) ∧
      ∃ ls2,
        storeBooking refHost sampleNow oneBookingStorage "SBXYZ789" samplePassenger sampleFlight =
          Except.ok ls2 ∧
        ls2.getItem "flightBookings" = some (refHost.stringify
          (Json.arr ([bookingRecord "SBABC123" samplePassenger sampleFlight sampleNow] ++
            [bookingRecord "SBXYZ789" samplePassenger sampleFlight sampleNow]))) ∧
        ∀ k, k ≠ "flightBookings" → ls2.getItem k = oneBookingStorage.getItem k :=
  ⟨⟨rfl, rfl,
      (storeBooking_appends refHost sampleNow emptyStorage "SBABC123" samplePassenger sampleFlight
        [] rfl (Or.inl ⟨rfl, rfl⟩)).1⟩,
    oneBookingStorage_holds,
    (storeBooking_appends refHost sampleNow oneBookingStorage "SBXYZ789" samplePassenger
      sampleFlight [bookingRecord "SBABC123" samplePassenger sampleFlight sampleNow]
      rfl (Or.inr oneBookingStorage_holds)).1⟩

/-- Claim C8 as stated fails: with the text `not json` under the key, which
`JSON.parse` rejects, `storeBooking` ends in the parser's `SyntaxError` and
writes nothing. -/
theorem storeBooking_corrupt_fails :
    corruptStorage.getItem "flightBookings" = some "not json" ∧
      refHost.parse "not json" = none ∧
      storeBooking refHost sampleNow corruptStorage "SBABC123" samplePassenger sampleFlight =
        Except.error JsError.syntaxError :=
  ⟨rfl, rfl, rfl⟩

/-- Claim C8, amended: the only unparsable item that `storeBooking` reads as
the empty list is the empty string, after which the key holds the list of the
one new record. For any other stored text that `JSON.parse` rejects the call
ends in a `SyntaxError`, and for stored text that parses to a value other than
a list it ends in a `TypeError`; in both cases nothing is written. -/
theorem storeBooking_corrupt (host : JsonHost) (now : String) (ls : LocalStorage)
    (bookingRef : String) (passengerData flightData : Json) (s : String)
    (hget : ls.getItem "flightBookings" = some s) :
    (s = "" → host.parse "[]" = some (Json.arr []) →
        storeBooking host now ls bookingRef passengerData flightData =
          Except.ok (ls.setItem "flightBookings" (host.stringify
            (Json.arr [bookingRecord bookingRef passengerData flightData now])))) ∧
      (s ≠ "" → host.parse s = none →
        storeBooking host now ls bookingRef passengerData flightData =
          Except.error JsError.syntaxError) ∧
      (s ≠ "" → ∀ v, host.parse s = some v → (∀ L, v ≠ Json.arr L) →
        storeBooking host now ls bookingRef passengerData flightData =
          Except.error JsError.typeError) := by
  refine ⟨fun hs hempty => ?_, fun hs hparse => ?_, fun hs v hparse hv => ?_⟩
  · exact storeBooking_of_parse_arr host now ls _ _ _ "[]" []
      (by rw [hget]; simp only [hs, if_true]) hempty
  · exact storeBooking_of_parse_none host now ls _ _ _ s
      (by rw [hget]; simp only [hs, if_false]) hparse
  · exact storeBooking_of_parse_other host now ls _ _ _ s v
      (by rw [hget]; simp only [hs, if_false]) hparse hv

/-- A stored object in place of a list: `push` is missing and the call ends in a `TypeError`. -/
theorem storeBooking_corrupt_witness :
    objectStorage.getItem "flightBookings" = some "\x7b\x7d" ∧
      refHost.parse "\x7b\x7d" = some (Json.obj []) ∧
      storeBooking refHost sampleNow objectStorage "SBABC123" samplePassenger sampleFlight =
        Except.error JsError.typeError :=
  ⟨rfl, rfl,
    (storeBooking_corrupt refHost sampleNow objectStorage "SBABC123" samplePassenger sampleFlight
      "\x7b\x7d" rfl).2.2 (by decide) (Json.obj []) rfl (fun _ h => Json.noConfusion h)⟩

end FlightBooking
